import Mathlib

/-!
# I2C slave driver (`fsl_i2c_slave_driver.c`): interrupt handler

A shallow embedding of `i2c_slave_irq_handler` and theorems about the sequence of
hardware accesses and application callbacks it performs.

The peripheral register layer (`i2c_hal_*`) is an external collaborator.  Every call the
handler makes into it is recorded, in program order, as an `Action`; the values the
status reads return during one invocation are supplied by an `I2CRegs` record.  The
application callbacks act on an application state of an arbitrary type `σ`.
-/

namespace I2CSlave

/-- Modelled from the spec: the header declaring `i2c_status_t` is not among the
sources.  The three enumerators the driver names are kept under their source names
(including the source's spelling `kStatus_I2C_AribtrationLost`); `other code` stands for
any further enumerator of the type, which a callback may return. -/
inductive i2c_status_t where
  | kStatus_I2C_Success
  | kStatus_I2C_AribtrationLost
  | kStatus_I2C_SlaveRxOverrun
  | other (code : Nat)
  deriving DecidableEq, Repr

/-- Modelled from the spec: the transfer direction type of the absent HAL header, with
the two enumerators the driver uses. -/
inductive i2c_direction_t where
  | kI2CReceive
  | kI2CTransmit
  deriving DecidableEq, Repr

open i2c_status_t i2c_direction_t

/-- The C type `uint8_t`: a byte. -/
abbrev uint8_t := Fin 256

/-- The macro `I2C_EMPTY_CHAR` (line 44). -/
def I2C_EMPTY_CHAR : uint8_t := 0x00

/-- The struct `i2c_slave_info_t`: the registered callback bundle.  A null function
pointer is `none`.  `data_source` receives a pointer to the byte to send: it is given the
value stored there on entry and returns its status, the value stored there on exit and
the new application state.  `data_sink` receives the byte read.  `on_error` receives the
error status. -/
structure i2c_slave_info_t (σ : Type) where
  slaveAddress : Nat
  data_source : Option (uint8_t → σ → i2c_status_t × uint8_t × σ)
  data_sink : Option (uint8_t → σ → i2c_status_t × σ)
  on_error : Option (i2c_status_t → σ → σ)

/-- The values the peripheral's status reads return during one handler invocation:
`i2c_hal_was_arbitration_lost`, `i2c_hal_is_addressed_as_slave`, `i2c_hal_is_master`,
`i2c_hal_get_slave_direction`, `i2c_hal_get_direction`, `i2c_hal_get_receive_ack` and
the byte `i2c_hal_read` returns. -/
structure I2CRegs where
  arbitrationLost : Bool
  addressedAsSlave : Bool
  isMaster : Bool
  slaveDirection : i2c_direction_t
  direction : i2c_direction_t
  receiveAck : Bool
  data : uint8_t
  deriving DecidableEq, Repr

/-- One observable step of the handler: a call into the register layer (named after the
HAL function, with the instance it is applied to) or an application callback. -/
inductive Action where
  | i2c_hal_clear_interrupt (inst : Nat)
  | i2c_hal_was_arbitration_lost (inst : Nat)
  | i2c_hal_clear_arbitration_lost (inst : Nat)
  | i2c_hal_is_addressed_as_slave (inst : Nat)
  | i2c_hal_is_master (inst : Nat)
  | i2c_hal_get_slave_direction (inst : Nat)
  | i2c_hal_get_direction (inst : Nat)
  | i2c_hal_get_receive_ack (inst : Nat)
  | i2c_hal_set_direction (inst : Nat) (d : i2c_direction_t)
  | i2c_hal_read (inst : Nat) (value : uint8_t)
  | i2c_hal_write (inst : Nat) (byte : uint8_t)
  | data_source
  | data_sink (byte : uint8_t)
  | on_error (error : i2c_status_t)
  deriving DecidableEq, Repr

open Action

/-- Lines 77-86: clear the interrupt, read (and clear) arbitration lost, read
addressed-as-slave, read is-master. -/
def irq_entry (inst : Nat) (hw : I2CRegs) : List Action :=
  [i2c_hal_clear_interrupt inst, i2c_hal_was_arbitration_lost inst]
    ++ (if hw.arbitrationLost then [i2c_hal_clear_arbitration_lost inst] else [])
    ++ [i2c_hal_is_addressed_as_slave inst, i2c_hal_is_master inst]

/-- Lines 95-152: the branch on the status bits.  Returns the actions performed, the
locals `doTransmit` and `error`, and the application state. -/
def irq_branch {σ : Type} (inst : Nat) (appInfo : i2c_slave_info_t σ) (hw : I2CRegs)
    (s : σ) : List Action × Bool × i2c_status_t × σ :=
  if hw.arbitrationLost && !hw.addressedAsSlave then
    ([], false, kStatus_I2C_AribtrationLost, s)
  else if hw.addressedAsSlave then
    if hw.slaveDirection = kI2CTransmit then
      ([i2c_hal_get_slave_direction inst, i2c_hal_set_direction inst kI2CTransmit],
        true, kStatus_I2C_Success, s)
    else
      ([i2c_hal_get_slave_direction inst, i2c_hal_set_direction inst kI2CReceive,
          i2c_hal_read inst hw.data],
        false, kStatus_I2C_Success, s)
  else
    if hw.direction = kI2CTransmit then
      if !hw.receiveAck then
        ([i2c_hal_get_direction inst, i2c_hal_get_receive_ack inst,
            i2c_hal_set_direction inst kI2CReceive, i2c_hal_read inst hw.data],
          false, kStatus_I2C_Success, s)
      else
        ([i2c_hal_get_direction inst, i2c_hal_get_receive_ack inst],
          true, kStatus_I2C_Success, s)
    else
      match appInfo.data_sink with
      | some sink =>
        ([i2c_hal_get_direction inst, i2c_hal_read inst hw.data, data_sink hw.data],
          false,
          (if (sink hw.data s).1 ≠ kStatus_I2C_Success then kStatus_I2C_SlaveRxOverrun
            else kStatus_I2C_Success),
          (sink hw.data s).2)
      | none =>
        ([i2c_hal_get_direction inst, i2c_hal_read inst hw.data],
          false, kStatus_I2C_Success, s)

/-- Lines 154-164: the transmit action.  Returns the actions performed, the local
`error` and the application state. -/
def irq_transmit {σ : Type} (inst : Nat) (appInfo : i2c_slave_info_t σ)
    (doTransmit : Bool) (error : i2c_status_t) (s : σ) :
    List Action × i2c_status_t × σ :=
  if doTransmit then
    match appInfo.data_source with
    | some source =>
      ([data_source, i2c_hal_write inst (source I2C_EMPTY_CHAR s).2.1],
        (source I2C_EMPTY_CHAR s).1, (source I2C_EMPTY_CHAR s).2.2)
    | none => ([i2c_hal_write inst I2C_EMPTY_CHAR], error, s)
  else ([], error, s)

/-- Lines 166-169: report the error to the application. -/
def irq_report {σ : Type} (appInfo : i2c_slave_info_t σ) (error : i2c_status_t) (s : σ) :
    List Action × σ :=
  if error ≠ kStatus_I2C_Success then
    match appInfo.on_error with
    | some notify => ([on_error error], notify error s)
    | none => ([], s)
  else ([], s)

/-- The value of the local `error` when the handler reaches line 166 (slave mode). -/
def irq_error {σ : Type} (inst : Nat) (appInfo : i2c_slave_info_t σ) (hw : I2CRegs)
    (s : σ) : i2c_status_t :=
  let b := irq_branch inst appInfo hw s
  (irq_transmit inst appInfo b.2.1 b.2.2.1 b.2.2.2).2.1

/-- Lines 74-169: the body of `i2c_slave_irq_handler` once `appInfo` points at the
instance's entry of `s_applicationInfo`. -/
def irq_body {σ : Type} (inst : Nat) (appInfo : i2c_slave_info_t σ) (hw : I2CRegs)
    (s : σ) : List Action × σ :=
  if hw.isMaster then (irq_entry inst hw, s)
  else
    let b := irq_branch inst appInfo hw s
    let t := irq_transmit inst appInfo b.2.1 b.2.2.1 b.2.2.2
    let r := irq_report appInfo t.2.1 t.2.2
    (irq_entry inst hw ++ b.1 ++ t.1 ++ r.1, r.2)

/-- The function `i2c_slave_irq_handler` (lines 68-170).  `HW_I2C_INSTANCE_COUNT` is a
macro of an absent device header and is a parameter; `s_applicationInfo` is the static
table of two entries (line 51).  The result is `none` when the assertion of line 70
fails or when the index is outside the table; otherwise it is the sequence of actions
performed and the application state the callbacks leave.  For an index outside the
table `none` is on the safe side: line 72 only forms the address of the entry, and the
code reads through it at lines 143, 158 and 166, so the paths that reach none of these
lines complete in the code while the embedding gives `none` for them too. -/
def i2c_slave_irq_handler {σ : Type} (HW_I2C_INSTANCE_COUNT : Nat)
    (s_applicationInfo : Fin 2 → i2c_slave_info_t σ) (inst : Nat) (hw : I2CRegs) (s : σ) :
    Option (List Action × σ) :=
  if inst < HW_I2C_INSTANCE_COUNT then
    if h : inst < 2 then some (irq_body inst (s_applicationInfo ⟨inst, h⟩) hw s)
    else none
  else none

/-- Consecutive invocations of the handler on one instance, one per hardware event, each
fully processed before the next; the traces are concatenated and the application state
is threaded through. -/
def irq_sequence {σ : Type} (HW_I2C_INSTANCE_COUNT : Nat)
    (s_applicationInfo : Fin 2 → i2c_slave_info_t σ) (inst : Nat) :
    List I2CRegs → σ → Option (List Action × σ)
  | [], s => some ([], s)
  | hw :: rest, s =>
    match i2c_slave_irq_handler HW_I2C_INSTANCE_COUNT s_applicationInfo inst hw s with
    | none => none
    | some r =>
      match irq_sequence HW_I2C_INSTANCE_COUNT s_applicationInfo inst rest r.2 with
      | none => none
      | some r2 => some (r.1 ++ r2.1, r2.2)

/-! ## Observations on traces -/

/-- The action is a clear of the pending interrupt. -/
def Action.isClearInterrupt : Action → Bool
  | i2c_hal_clear_interrupt _ => true
  | _ => false

/-- The action is a read of the data register. -/
def Action.isDataRead : Action → Bool
  | i2c_hal_read _ _ => true
  | _ => false

/-- The action is a write of the data register. -/
def Action.isDataWrite : Action → Bool
  | i2c_hal_write _ _ => true
  | _ => false

/-- The action is a change of the peripheral's direction. -/
def Action.isSetDirection : Action → Bool
  | i2c_hal_set_direction _ _ => true
  | _ => false

/-- The action is a call of `data_source`. -/
def Action.isDataSource : Action → Bool
  | data_source => true
  | _ => false

/-- The action is a call of `data_sink`. -/
def Action.isDataSink : Action → Bool
  | data_sink _ => true
  | _ => false

/-- The action is a call of `on_error`. -/
def Action.isOnError : Action → Bool
  | on_error _ => true
  | _ => false

/-- The action is an application callback. -/
def Action.isCallback (a : Action) : Bool :=
  a.isDataSource || a.isDataSink || a.isOnError

/-- The bytes written to the data register, in order. -/
def writtenBytes : List Action → List uint8_t
  | [] => []
  | i2c_hal_write _ b :: rest => b :: writtenBytes rest
  | _ :: rest => writtenBytes rest

/-! ## Classes of events -/

/-- The event is an address match in slave mode with hardware-reported slave direction
transmit (lines 100-108). -/
def isAddressTransmit (hw : I2CRegs) : Bool :=
  !hw.isMaster && hw.addressedAsSlave && decide (hw.slaveDirection = kI2CTransmit)

/-- The event is, in slave mode, not addressed, arbitration not lost, current direction
transmit and the last byte acknowledged (lines 130-134). -/
def isContinueTransmit (hw : I2CRegs) : Bool :=
  !hw.isMaster && !hw.arbitrationLost && !hw.addressedAsSlave
    && decide (hw.direction = kI2CTransmit) && hw.receiveAck

/-- Called again and again from application state `s`, the `data_source` returns success
each time and leaves the bytes `bs`, in this order. -/
def sourceYields {σ : Type} (source : uint8_t → σ → i2c_status_t × uint8_t × σ) :
    σ → List uint8_t → Bool
  | _, [] => true
  | s, b :: bs =>
    decide ((source I2C_EMPTY_CHAR s).1 = kStatus_I2C_Success)
      && decide ((source I2C_EMPTY_CHAR s).2.1 = b)
      && sourceYields source (source I2C_EMPTY_CHAR s).2.2 bs

/-! ## An example application -/

/-- The state of an example application: the bytes still to send, the bytes received and
the errors it was told of. -/
structure ExampleApp where
  toSend : List uint8_t
  received : List uint8_t
  errors : List i2c_status_t
  deriving DecidableEq, Repr

/-- An example `data_source`: hands out the next byte to send; with none left it stores
nothing and returns a failure status. -/
def exampleSource (b : uint8_t) (a : ExampleApp) : i2c_status_t × uint8_t × ExampleApp :=
  match a.toSend with
  | x :: rest => (kStatus_I2C_Success, x, ⟨rest, a.received, a.errors⟩)
  | [] => (other 7, b, a)

/-- An example `data_sink`: a buffer with room for two bytes; a byte that does not fit is
refused with a failure status. -/
def exampleSink (b : uint8_t) (a : ExampleApp) : i2c_status_t × ExampleApp :=
  if a.received.length < 2 then
    (kStatus_I2C_Success, ⟨a.toSend, a.received ++ [b], a.errors⟩)
  else (other 3, a)

/-- An example `on_error`: logs the error. -/
def exampleOnError (e : i2c_status_t) (a : ExampleApp) : ExampleApp :=
  ⟨a.toSend, a.received, a.errors ++ [e]⟩

/-- An example registration with all three callbacks. -/
def exampleInfo : i2c_slave_info_t ExampleApp :=
  ⟨0x3A, some exampleSource, some exampleSink, some exampleOnError⟩

/-- An example table holding the example registration in both entries. -/
def exampleTable : Fin 2 → i2c_slave_info_t ExampleApp := fun _ => exampleInfo

/-- Address match, the master reads from the slave. -/
def addressTransmitEvent : I2CRegs :=
  ⟨false, true, false, kI2CTransmit, kI2CReceive, false, 0x00⟩

/-- Address match, the master writes to the slave. -/
def addressReceiveEvent : I2CRegs :=
  ⟨false, true, false, kI2CReceive, kI2CReceive, false, 0xA0⟩

/-- A byte was sent and acknowledged. -/
def continueTransmitEvent : I2CRegs :=
  ⟨false, false, false, kI2CTransmit, kI2CTransmit, true, 0x00⟩

/-- A byte was sent and not acknowledged. -/
def transmitNackEvent : I2CRegs :=
  ⟨false, false, false, kI2CTransmit, kI2CTransmit, false, 0x00⟩

/-- The byte 0x5A was received. -/
def receiveEvent : I2CRegs :=
  ⟨false, false, false, kI2CReceive, kI2CReceive, false, 0x5A⟩

/-- Arbitration was lost while not addressed; the direction bit says transmit and the
acknowledge bit is set. -/
def arbitrationLostEvent : I2CRegs :=
  ⟨true, false, false, kI2CTransmit, kI2CTransmit, true, 0x00⟩

/-- The interrupt fires while the peripheral reports master mode, with arbitration lost. -/
def masterEvent : I2CRegs :=
  ⟨true, false, true, kI2CTransmit, kI2CTransmit, true, 0x00⟩

/-- An example application state with three bytes to send and nothing received. -/
def exampleApp : ExampleApp := ⟨[0x11, 0x22, 0x33], [], []⟩

/-- An example application state whose receive buffer is full. -/
def exampleAppFull : ExampleApp := ⟨[], [0x01, 0x02], []⟩

/-- An example application state with nothing left to send. -/
def exampleAppDrained : ExampleApp := ⟨[], [], []⟩

/-! ## Instance lifecycle: `i2c_slave_init` and `i2c_slave_shutdown` -/

/-- One step of `i2c_slave_init` or `i2c_slave_shutdown`: the store into
`s_applicationInfo` (line 186) or a call into the clock manager, the register layer, the
shared IRQ layer or the interrupt manager, named after the function called, with its
arguments. -/
inductive Effect (σ : Type) where
  | store_applicationInfo (inst : Nat) (info : i2c_slave_info_t σ)
  | clock_manager_set_gate (inst : Nat) (enable : Bool)
  | i2c_hal_set_independent_slave_baud (inst : Nat) (enable : Bool)
  | i2c_hal_set_slave_address_7bit (inst : Nat) (address : Nat)
  | i2c_hal_disable_interrupt (inst : Nat)
  | i2c_hal_clear_interrupt (inst : Nat)
  | i2c_set_shared_irq_is_master (inst : Nat) (isMaster : Bool)
  | i2c_set_shared_irq_state (inst : Nat) (state : i2c_slave_info_t σ)
  | interrupt_enable (irq : Nat)
  | i2c_hal_enable_interrupt (inst : Nat)
  | i2c_hal_enable (inst : Nat)
  | i2c_hal_disable (inst : Nat)
  | interrupt_disable (irq : Nat)

/-- The function `i2c_slave_init` (lines 180-213).  A null `appInfo` is `none`;
`i2c_irq_ids` is the external table of IRQ numbers (line 53).  The result is `none` when
an assertion fails (lines 182-183) or when the index is outside the table of two
entries; otherwise it is the table after the store of line 186 and the steps performed,
in program order. -/
def i2c_slave_init {σ : Type} (HW_I2C_INSTANCE_COUNT : Nat) (i2c_irq_ids : Nat → Nat)
    (s_applicationInfo : Fin 2 → i2c_slave_info_t σ) (inst : Nat)
    (appInfo : Option (i2c_slave_info_t σ)) :
    Option ((Fin 2 → i2c_slave_info_t σ) × List (Effect σ)) :=
  match appInfo with
  | none => none
  | some info =>
    if inst < HW_I2C_INSTANCE_COUNT then
      if h : inst < 2 then
        some (Function.update s_applicationInfo ⟨inst, h⟩ info,
          [Effect.store_applicationInfo inst info,
           Effect.clock_manager_set_gate inst true,
           Effect.i2c_hal_set_independent_slave_baud inst true,
           Effect.i2c_hal_set_slave_address_7bit inst info.slaveAddress,
           Effect.i2c_hal_disable_interrupt inst,
           Effect.i2c_hal_clear_interrupt inst,
           Effect.i2c_set_shared_irq_is_master inst false,
           Effect.i2c_set_shared_irq_state inst info,
           Effect.interrupt_enable (i2c_irq_ids inst),
           Effect.i2c_hal_enable_interrupt inst,
           Effect.i2c_hal_enable inst])
      else none
    else none

/-- The function `i2c_slave_shutdown` (lines 222-234).  The result is `none` when the
assertion of line 224 fails; otherwise it is the steps performed, in program order. -/
def i2c_slave_shutdown {σ : Type} (HW_I2C_INSTANCE_COUNT : Nat) (i2c_irq_ids : Nat → Nat)
    (inst : Nat) : Option (List (Effect σ)) :=
  if inst < HW_I2C_INSTANCE_COUNT then
    some [Effect.i2c_hal_disable inst,
          Effect.interrupt_disable (i2c_irq_ids inst),
          Effect.clock_manager_set_gate inst false]
  else none

/-- The step is the store into `s_applicationInfo`. -/
def Effect.isStore {σ : Type} : Effect σ → Bool
  | Effect.store_applicationInfo _ _ => true
  | _ => false

/-- The step enables an interrupt: the line in the interrupt controller or the
peripheral's own interrupt. -/
def Effect.isInterruptEnable {σ : Type} : Effect σ → Bool
  | Effect.interrupt_enable _ => true
  | Effect.i2c_hal_enable_interrupt _ => true
  | _ => false

/-- The step disables the peripheral's interrupt. -/
def Effect.isInterruptDisable {σ : Type} : Effect σ → Bool
  | Effect.i2c_hal_disable_interrupt _ => true
  | _ => false

/-- The step clears the pending interrupt. -/
def Effect.isInterruptClear {σ : Type} : Effect σ → Bool
  | Effect.i2c_hal_clear_interrupt _ => true
  | _ => false

/-- The step enables the peripheral. -/
def Effect.isPeripheralEnable {σ : Type} : Effect σ → Bool
  | Effect.i2c_hal_enable _ => true
  | _ => false

/-- Modelled from the spec: the clock manager, the register layer and the interrupt
manager are not among the sources.  The state they keep, as far as the lifecycle is
concerned: per instance the clock gate, the peripheral-enabled flag and the peripheral's
interrupt-enable flag; per IRQ number the enabled flag of the line in the interrupt
controller. -/
structure Peripherals where
  clockGate : Nat → Bool
  enabled : Nat → Bool
  interruptEnabled : Nat → Bool
  irqLine : Nat → Bool

/-- Modelled from the spec: what each step does to the flags, each call being a single
atomic enable or disable (`clock_manager_set_gate`, `i2c_hal_enable`, `i2c_hal_disable`,
`i2c_hal_enable_interrupt`, `i2c_hal_disable_interrupt`, `interrupt_enable`,
`interrupt_disable`); the other steps leave the flags alone. -/
def Effect.apply {σ : Type} (hw : Peripherals) : Effect σ → Peripherals
  | Effect.clock_manager_set_gate inst enable =>
    ⟨Function.update hw.clockGate inst enable, hw.enabled, hw.interruptEnabled, hw.irqLine⟩
  | Effect.i2c_hal_enable inst =>
    ⟨hw.clockGate, Function.update hw.enabled inst true, hw.interruptEnabled, hw.irqLine⟩
  | Effect.i2c_hal_disable inst =>
    ⟨hw.clockGate, Function.update hw.enabled inst false, hw.interruptEnabled, hw.irqLine⟩
  | Effect.i2c_hal_enable_interrupt inst =>
    ⟨hw.clockGate, hw.enabled, Function.update hw.interruptEnabled inst true, hw.irqLine⟩
  | Effect.i2c_hal_disable_interrupt inst =>
    ⟨hw.clockGate, hw.enabled, Function.update hw.interruptEnabled inst false, hw.irqLine⟩
  | Effect.interrupt_enable irq =>
    ⟨hw.clockGate, hw.enabled, hw.interruptEnabled, Function.update hw.irqLine irq true⟩
  | Effect.interrupt_disable irq =>
    ⟨hw.clockGate, hw.enabled, hw.interruptEnabled, Function.update hw.irqLine irq false⟩
  | _ => hw

/-- The flags after a sequence of steps. -/
def applyEffects {σ : Type} : Peripherals → List (Effect σ) → Peripherals
  | hw, [] => hw
  | hw, e :: rest => applyEffects (e.apply hw) rest

/-- The state of the driver and of what it drives: the static table
`s_applicationInfo`, the flags of the peripherals and the application state. -/
structure Driver (σ : Type) where
  s_applicationInfo : Fin 2 → i2c_slave_info_t σ
  hw : Peripherals
  app : σ

/-- A call of `i2c_slave_init` on the driver state. -/
def Driver.init {σ : Type} (HW_I2C_INSTANCE_COUNT : Nat) (i2c_irq_ids : Nat → Nat)
    (d : Driver σ) (inst : Nat) (appInfo : Option (i2c_slave_info_t σ)) :
    Option (Driver σ) :=
  match i2c_slave_init HW_I2C_INSTANCE_COUNT i2c_irq_ids d.s_applicationInfo inst appInfo with
  | none => none
  | some r => some ⟨r.1, applyEffects d.hw r.2, d.app⟩

/-- A call of `i2c_slave_shutdown` on the driver state. -/
def Driver.shutdown {σ : Type} (HW_I2C_INSTANCE_COUNT : Nat) (i2c_irq_ids : Nat → Nat)
    (d : Driver σ) (inst : Nat) : Option (Driver σ) :=
  match (i2c_slave_shutdown HW_I2C_INSTANCE_COUNT i2c_irq_ids inst :
      Option (List (Effect σ))) with
  | none => none
  | some effects => some ⟨d.s_applicationInfo, applyEffects d.hw effects, d.app⟩

/-- A call of `i2c_slave_irq_handler` on the driver state, the status reads returning
`regs`: the new state and the actions performed. -/
def Driver.irq {σ : Type} (HW_I2C_INSTANCE_COUNT : Nat) (d : Driver σ) (inst : Nat)
    (regs : I2CRegs) : Option (Driver σ × List Action) :=
  match i2c_slave_irq_handler HW_I2C_INSTANCE_COUNT d.s_applicationInfo inst regs d.app with
  | none => none
  | some r => some (⟨d.s_applicationInfo, d.hw, r.2⟩, r.1)

/-! ## Sequences of lifecycle calls -/

/-- A lifecycle call on one instance: `i2c_slave_init` with a context, or
`i2c_slave_shutdown`. -/
inductive Call (σ : Type) where
  | init (c : i2c_slave_info_t σ)
  | shutdown

/-- The steps of a sequence of lifecycle calls on one instance, in order, and the table
they leave. -/
def lifecycle {σ : Type} (HW_I2C_INSTANCE_COUNT : Nat) (i2c_irq_ids : Nat → Nat)
    (inst : Nat) :
    (Fin 2 → i2c_slave_info_t σ) → List (Call σ) →
      Option ((Fin 2 → i2c_slave_info_t σ) × List (Effect σ))
  | table, [] => some (table, [])
  | table, Call.init c :: rest =>
    match i2c_slave_init HW_I2C_INSTANCE_COUNT i2c_irq_ids table inst (some c) with
    | none => none
    | some r =>
      match lifecycle HW_I2C_INSTANCE_COUNT i2c_irq_ids inst r.1 rest with
      | none => none
      | some r2 => some (r2.1, r.2 ++ r2.2)
  | table, Call.shutdown :: rest =>
    match (i2c_slave_shutdown HW_I2C_INSTANCE_COUNT i2c_irq_ids inst :
        Option (List (Effect σ))) with
    | none => none
    | some effects =>
      match lifecycle HW_I2C_INSTANCE_COUNT i2c_irq_ids inst table rest with
      | none => none
      | some r2 => some (r2.1, effects ++ r2.2)

/-- The interrupt of the instance can reach the handler: its line is enabled in the
interrupt controller and the peripheral's interrupt is enabled. -/
def Peripherals.interruptSourceEnabled (hw : Peripherals) (irq inst : Nat) : Bool :=
  hw.irqLine irq && hw.interruptEnabled inst

/-- The step is the store into the entry of the instance. -/
def Effect.storesInto {σ : Type} (inst : Nat) : Effect σ → Bool
  | Effect.store_applicationInfo i _ => decide (i = inst)
  | _ => false

/-- Running the steps from the flags `hw`, some store into the entry of the instance
happens at a moment when the interrupt source of the instance is enabled. -/
def storeWhileInterruptEnabled {σ : Type} (irq inst : Nat) :
    Peripherals → List (Effect σ) → Bool
  | _, [] => false
  | hw, e :: rest =>
    (e.storesInto inst && hw.interruptSourceEnabled irq inst)
      || storeWhileInterruptEnabled irq inst (e.apply hw) rest

/-- No `i2c_slave_init` directly follows another one: every `i2c_slave_init` of the
sequence is its first call or comes after an `i2c_slave_shutdown`.  The flag tells
whether the call before the sequence was an `i2c_slave_init`. -/
def initOnlyWhenShutDown {σ : Type} : Bool → List (Call σ) → Bool
  | _, [] => true
  | afterInit, Call.init _ :: rest => !afterInit && initOnlyWhenShutDown true rest
  | _, Call.shutdown :: rest => initOnlyWhenShutDown false rest

/-- The flags after reset: everything off. -/
def resetPeripherals : Peripherals :=
  ⟨fun _ => false, fun _ => false, fun _ => false, fun _ => false⟩

/-- An example table of IRQ numbers: instance 0 on line 24, instance 1 on line 25. -/
def exampleIrqIds : Nat → Nat := fun inst => 24 + inst

/-! ## The classification of events -/

/-- The action is a direction change, a data-register access or an application
callback. -/
def Action.isTransfer (a : Action) : Bool :=
  a.isSetDirection || a.isDataRead || a.isDataWrite || a.isCallback

/-- The direction changes, data-register accesses and callbacks of a trace, in order. -/
def transfers (tr : List Action) : List Action := tr.filter Action.isTransfer

/-- The six classes of slave-mode events the spec names (design notes). -/
inductive EventClass where
  | arbitrationLost
  | addressedTransmit
  | addressedReceive
  | continueTransmitAck
  | continueTransmitNack
  | continueReceive
  deriving DecidableEq, Repr

/-- The spec's description of each class, as a condition on the status bits (steps 4, 5
and 6 of the algorithm). -/
def EventClass.holds : EventClass → I2CRegs → Bool
  | EventClass.arbitrationLost, hw => hw.arbitrationLost && !hw.addressedAsSlave
  | EventClass.addressedTransmit, hw =>
    hw.addressedAsSlave && decide (hw.slaveDirection = kI2CTransmit)
  | EventClass.addressedReceive, hw =>
    hw.addressedAsSlave && decide (hw.slaveDirection = kI2CReceive)
  | EventClass.continueTransmitAck, hw =>
    !hw.addressedAsSlave && !hw.arbitrationLost
      && decide (hw.direction = kI2CTransmit) && hw.receiveAck
  | EventClass.continueTransmitNack, hw =>
    !hw.addressedAsSlave && !hw.arbitrationLost
      && decide (hw.direction = kI2CTransmit) && !hw.receiveAck
  | EventClass.continueReceive, hw =>
    !hw.addressedAsSlave && !hw.arbitrationLost && decide (hw.direction = kI2CReceive)

/-- The spec's classification step: one class for each slave-mode event, chosen in the
order of steps 4, 5 and 6 of the algorithm. -/
def spec_classify (hw : I2CRegs) : EventClass :=
  if hw.arbitrationLost && !hw.addressedAsSlave then EventClass.arbitrationLost
  else if hw.addressedAsSlave then
    if hw.slaveDirection = kI2CTransmit then EventClass.addressedTransmit
    else EventClass.addressedReceive
  else if hw.direction = kI2CTransmit then
    if hw.receiveAck then EventClass.continueTransmitAck
    else EventClass.continueTransmitNack
  else EventClass.continueReceive

/-- The spec's step 8: an error other than success goes to `on_error`, when registered,
once. -/
def spec_report {σ : Type} (appInfo : i2c_slave_info_t σ) (error : i2c_status_t) (s : σ) :
    List Action × σ :=
  match error, appInfo.on_error with
  | kStatus_I2C_Success, _ => ([], s)
  | _, none => ([], s)
  | e, some notify => ([on_error e], notify e s)

/-- The spec's step 7 followed by step 8: the next byte comes from `data_source`, or is
the placeholder when none is registered, and is written; a status other than success is
then reported. -/
def spec_transmit {σ : Type} (inst : Nat) (appInfo : i2c_slave_info_t σ) (s : σ) :
    List Action × σ :=
  match appInfo.data_source with
  | none => ([i2c_hal_write inst I2C_EMPTY_CHAR], s)
  | some source =>
    let r := source I2C_EMPTY_CHAR s
    let e := spec_report appInfo r.1 r.2.2
    ([data_source, i2c_hal_write inst r.2.1] ++ e.1, e.2)

/-- The spec's single dispatch on the class of the event: the direction change,
data-register access and callbacks of steps 4 to 8, `data` being the byte a read of the
data register returns. -/
def spec_dispatch {σ : Type} (inst : Nat) (appInfo : i2c_slave_info_t σ) (data : uint8_t)
    (s : σ) : EventClass → List Action × σ
  | EventClass.arbitrationLost => spec_report appInfo kStatus_I2C_AribtrationLost s
  | EventClass.addressedTransmit =>
    (i2c_hal_set_direction inst kI2CTransmit :: (spec_transmit inst appInfo s).1,
      (spec_transmit inst appInfo s).2)
  | EventClass.addressedReceive =>
    ([i2c_hal_set_direction inst kI2CReceive, i2c_hal_read inst data], s)
  | EventClass.continueTransmitAck => spec_transmit inst appInfo s
  | EventClass.continueTransmitNack =>
    ([i2c_hal_set_direction inst kI2CReceive, i2c_hal_read inst data], s)
  | EventClass.continueReceive =>
    match appInfo.data_sink with
    | none => ([i2c_hal_read inst data], s)
    | some sink =>
      let r := sink data s
      let e := spec_report appInfo
        (if r.1 = kStatus_I2C_Success then kStatus_I2C_Success
          else kStatus_I2C_SlaveRxOverrun) r.2
      ([i2c_hal_read inst data, data_sink data] ++ e.1, e.2)

/-- The zero-initialised entry of the static table (line 51): address 0, no callback. -/
def zeroInfo : i2c_slave_info_t ExampleApp := ⟨0, none, none, none⟩

/-- The static table as the program starts. -/
def zeroTable : Fin 2 → i2c_slave_info_t ExampleApp := fun _ => zeroInfo

/-- An example driver state: the table as the program starts, the flags after reset. -/
def exampleDriver : Driver ExampleApp := ⟨zeroTable, resetPeripherals, exampleApp⟩

/-- Address match for a read while the arbitration-lost flag is set, with other
direction and acknowledge bits than in `addressTransmitEvent`. -/
def addressedArbitrationLostEvent : I2CRegs :=
  ⟨true, true, false, kI2CTransmit, kI2CTransmit, true, 0x00⟩

/-! ## Shared lemmas -/

/-- On a valid instance the handler runs its body on the instance's table entry. -/
theorem handler_eq_body {σ : Type} (HW_I2C_INSTANCE_COUNT : Nat)
    (s_applicationInfo : Fin 2 → i2c_slave_info_t σ) (inst : Nat) (hw : I2CRegs) (s : σ)
    (hI : inst < HW_I2C_INSTANCE_COUNT) (h2 : inst < 2) :
    i2c_slave_irq_handler HW_I2C_INSTANCE_COUNT s_applicationInfo inst hw s
      = some (irq_body inst (s_applicationInfo ⟨inst, h2⟩) hw s) := by
  simp [i2c_slave_irq_handler, hI, h2]

/-- The entry sequence starts with the clear of the pending interrupt. -/
theorem irq_entry_eq (inst : Nat) (hw : I2CRegs) :
    irq_entry inst hw = i2c_hal_clear_interrupt inst ::
      (i2c_hal_was_arbitration_lost inst ::
        ((if hw.arbitrationLost then [i2c_hal_clear_arbitration_lost inst] else [])
          ++ [i2c_hal_is_addressed_as_slave inst, i2c_hal_is_master inst])) := by
  simp [irq_entry]

/-- The body's trace is the entry sequence followed by a tail. -/
theorem irq_body_trace {σ : Type} (inst : Nat) (appInfo : i2c_slave_info_t σ)
    (hw : I2CRegs) (s : σ) :
    (irq_body inst appInfo hw s).1 = irq_entry inst hw ++
      (if hw.isMaster then []
        else (irq_branch inst appInfo hw s).1
          ++ (irq_transmit inst appInfo (irq_branch inst appInfo hw s).2.1
                (irq_branch inst appInfo hw s).2.2.1 (irq_branch inst appInfo hw s).2.2.2).1
          ++ (irq_report appInfo
                (irq_transmit inst appInfo (irq_branch inst appInfo hw s).2.1
                  (irq_branch inst appInfo hw s).2.2.1 (irq_branch inst appInfo hw s).2.2.2).2.1
                (irq_transmit inst appInfo (irq_branch inst appInfo hw s).2.1
                  (irq_branch inst appInfo hw s).2.2.1
                  (irq_branch inst appInfo hw s).2.2.2).2.2).1) := by
  unfold irq_body
  split <;> simp [*]

/-- No stage after the entry sequence clears the interrupt. -/
theorem irq_branch_no_clear {σ : Type} (inst : Nat) (appInfo : i2c_slave_info_t σ)
    (hw : I2CRegs) (s : σ) :
    (irq_branch inst appInfo hw s).1.countP Action.isClearInterrupt = 0 := by
  unfold irq_branch
  repeat' split
  all_goals simp [Action.isClearInterrupt]

theorem irq_transmit_no_clear {σ : Type} (inst : Nat) (appInfo : i2c_slave_info_t σ)
    (d : Bool) (e : i2c_status_t) (s : σ) :
    (irq_transmit inst appInfo d e s).1.countP Action.isClearInterrupt = 0 := by
  unfold irq_transmit
  repeat' split
  all_goals simp [Action.isClearInterrupt]

theorem irq_report_no_clear {σ : Type} (appInfo : i2c_slave_info_t σ)
    (e : i2c_status_t) (s : σ) :
    (irq_report appInfo e s).1.countP Action.isClearInterrupt = 0 := by
  unfold irq_report
  repeat' split
  all_goals simp [Action.isClearInterrupt]

/-- The bytes written by a concatenation of traces. -/
theorem writtenBytes_append (l1 l2 : List Action) :
    writtenBytes (l1 ++ l2) = writtenBytes l1 ++ writtenBytes l2 := by
  induction l1 with
  | nil => rfl
  | cons a l ih => cases a <;> simp [writtenBytes, ih]

/-- A trace without data-register writes carries no written byte. -/
theorem writtenBytes_of_no_write (l : List Action)
    (h : ∀ a ∈ l, a.isDataWrite = false) : writtenBytes l = [] := by
  induction l with
  | nil => rfl
  | cons a l ih =>
    have ha := h a (List.mem_cons_self a l)
    have hl := ih (fun x hx => h x (List.mem_cons_of_mem a hx))
    cases a <;> simp_all [writtenBytes, Action.isDataWrite]

/-- The entry sequence holds no data-register write and no callback. -/
theorem irq_entry_quiet (inst : Nat) (hw : I2CRegs) :
    ∀ a ∈ irq_entry inst hw,
      a.isDataWrite = false ∧ a.isDataSource = false ∧ a.isOnError = false := by
  cases hA : hw.arbitrationLost <;>
    simp [irq_entry, hA, Action.isDataWrite, Action.isDataSource, Action.isOnError]

/-- The branch on the status bits performs no data-register write and calls neither
`data_source` nor `on_error`. -/
theorem irq_branch_quiet {σ : Type} (inst : Nat) (appInfo : i2c_slave_info_t σ)
    (hw : I2CRegs) (s : σ) :
    ∀ a ∈ (irq_branch inst appInfo hw s).1,
      a.isDataWrite = false ∧ a.isDataSource = false ∧ a.isOnError = false := by
  unfold irq_branch
  repeat' split
  all_goals simp [Action.isDataWrite, Action.isDataSource, Action.isOnError]

/-- The transmit action calls no `on_error`. -/
theorem irq_transmit_no_on_error {σ : Type} (inst : Nat) (appInfo : i2c_slave_info_t σ)
    (d : Bool) (e : i2c_status_t) (s : σ) :
    ∀ a ∈ (irq_transmit inst appInfo d e s).1, a.isOnError = false := by
  unfold irq_transmit
  repeat' split
  all_goals simp [Action.isOnError]

/-- When the branch sets `doTransmit` it leaves `error` at success and the application
state untouched. -/
theorem irq_branch_doTransmit {σ : Type} (inst : Nat) (appInfo : i2c_slave_info_t σ)
    (hw : I2CRegs) (s : σ) (hT : (irq_branch inst appInfo hw s).2.1 = true) :
    (irq_branch inst appInfo hw s).2.2.1 = kStatus_I2C_Success ∧
      (irq_branch inst appInfo hw s).2.2.2 = s := by
  unfold irq_branch at hT ⊢
  repeat' split at hT
  all_goals simp_all

/-- The shape of the body's result when the transmit action runs with a registered
`data_source`. -/
theorem irq_body_transmit {σ : Type} (inst : Nat) (appInfo : i2c_slave_info_t σ)
    (hw : I2CRegs) (s : σ) (source : uint8_t → σ → i2c_status_t × uint8_t × σ)
    (hM : hw.isMaster = false) (hT : (irq_branch inst appInfo hw s).2.1 = true)
    (hSrc : appInfo.data_source = some source) :
    irq_body inst appInfo hw s =
      (irq_entry inst hw ++ (irq_branch inst appInfo hw s).1
          ++ [data_source, i2c_hal_write inst (source I2C_EMPTY_CHAR s).2.1]
          ++ (irq_report appInfo (source I2C_EMPTY_CHAR s).1
                (source I2C_EMPTY_CHAR s).2.2).1,
        (irq_report appInfo (source I2C_EMPTY_CHAR s).1
          (source I2C_EMPTY_CHAR s).2.2).2) := by
  have h3 := (irq_branch_doTransmit inst appInfo hw s hT).2
  simp [irq_body, hM, irq_transmit, hT, hSrc, h3]

/-- The report stage performs nothing, or exactly one `on_error` call whose argument is
the error, which is then not success. -/
theorem irq_report_cases {σ : Type} (appInfo : i2c_slave_info_t σ) (e : i2c_status_t)
    (s : σ) :
    (irq_report appInfo e s).1 = [] ∨
      (e ≠ kStatus_I2C_Success ∧ (irq_report appInfo e s).1 = [on_error e]) := by
  unfold irq_report
  split
  · split
    · right; exact ⟨by assumption, rfl⟩
    · left; rfl
  · left; rfl

/-- A trace made of a part without `on_error` calls followed by nothing or by one
`on_error` call with a status other than success: it holds at most one `on_error` call,
none with success, and an `on_error` call in it is its last action. -/
theorem on_error_last_of_shape (P R : List Action)
    (hP : ∀ a ∈ P, a.isOnError = false)
    (hR : R = [] ∨ ∃ e, e ≠ kStatus_I2C_Success ∧ R = [on_error e]) :
    (P ++ R).countP Action.isOnError ≤ 1 ∧
      on_error kStatus_I2C_Success ∉ P ++ R ∧
      ∀ e, on_error e ∈ P ++ R →
        e ≠ kStatus_I2C_Success ∧ (P ++ R).getLast? = some (on_error e) := by
  have hc : P.countP Action.isOnError = 0 :=
    List.countP_eq_zero.mpr (fun a ha => by simp [hP a ha])
  have hmem : ∀ e, on_error e ∉ P := fun e he => by
    have := hP _ he
    simp [Action.isOnError] at this
  rcases hR with rfl | ⟨e, hne, rfl⟩
  · refine ⟨by simp [hc], by simpa using hmem _, ?_⟩
    intro e he
    exact absurd (by simpa using he) (hmem e)
  · refine ⟨by simp [List.countP_append, hc, Action.isOnError], ?_, ?_⟩
    · intro h
      rcases List.mem_append.mp h with h | h
      · exact hmem _ h
      · simp at h
        exact hne h.symm
    · intro e' h
      rcases List.mem_append.mp h with h | h
      · exact absurd h (hmem _)
      · simp at h
        subst h
        exact ⟨hne, by simp⟩

/-- An event of one of the two transmit classes is handled in slave mode and makes the
branch set `doTransmit`. -/
theorem doTransmit_of_class {σ : Type} (inst : Nat) (appInfo : i2c_slave_info_t σ)
    (hw : I2CRegs) (s : σ)
    (h : isAddressTransmit hw = true ∨ isContinueTransmit hw = true) :
    hw.isMaster = false ∧ (irq_branch inst appInfo hw s).2.1 = true := by
  obtain ⟨a, ad, m, sd, d, ack, data⟩ := hw
  rcases h with h | h
  · simp [isAddressTransmit] at h
    obtain ⟨⟨h1, h2⟩, h3⟩ := h
    subst h1 h2 h3
    simp [irq_branch]
  · simp [isContinueTransmit] at h
    obtain ⟨⟨⟨⟨h1, h2⟩, h3⟩, h4⟩, h5⟩ := h
    subst h1 h2 h3 h4 h5
    simp [irq_branch]

/-- In slave mode the branch sets `doTransmit` exactly on the events of the two transmit
classes. -/
theorem irq_branch_doTransmit_iff {σ : Type} (inst : Nat) (appInfo : i2c_slave_info_t σ)
    (hw : I2CRegs) (s : σ) (hM : hw.isMaster = false) :
    (irq_branch inst appInfo hw s).2.1 = true ↔
      (isAddressTransmit hw = true ∨ isContinueTransmit hw = true) := by
  obtain ⟨a, ad, m, sd, d, ack, data⟩ := hw
  simp only at hM
  subst hM
  cases a <;> cases ad <;> cases sd <;> cases d <;> cases ack <;>
    cases hSk : appInfo.data_sink <;>
    simp [irq_branch, isAddressTransmit, isContinueTransmit, hSk]

/-- One handler call on an event of a transmit class, with a `data_source` that returns
success: the trace is a part without writes and callbacks, then the `data_source` call,
then the write of the byte it left. -/
theorem handler_transmit_step {σ : Type} (HW_I2C_INSTANCE_COUNT : Nat)
    (s_applicationInfo : Fin 2 → i2c_slave_info_t σ) (inst : Nat) (hw : I2CRegs) (s : σ)
    (appInfo : i2c_slave_info_t σ) (source : uint8_t → σ → i2c_status_t × uint8_t × σ)
    (hI : inst < HW_I2C_INSTANCE_COUNT) (h2 : inst < 2)
    (hInfo : s_applicationInfo ⟨inst, h2⟩ = appInfo)
    (hSrc : appInfo.data_source = some source)
    (hC : isAddressTransmit hw = true ∨ isContinueTransmit hw = true)
    (hst : (source I2C_EMPTY_CHAR s).1 = kStatus_I2C_Success) :
    ∃ P : List Action,
      (∀ a ∈ P, a.isDataWrite = false ∧ a.isDataSource = false ∧ a.isOnError = false) ∧
      i2c_slave_irq_handler HW_I2C_INSTANCE_COUNT s_applicationInfo inst hw s
        = some (P ++ [data_source, i2c_hal_write inst (source I2C_EMPTY_CHAR s).2.1],
                (source I2C_EMPTY_CHAR s).2.2) := by
  obtain ⟨hM, hT⟩ := doTransmit_of_class inst appInfo hw s hC
  refine ⟨irq_entry inst hw ++ (irq_branch inst appInfo hw s).1, ?_, ?_⟩
  · intro a ha
    rcases List.mem_append.mp ha with h | h
    · exact irq_entry_quiet inst hw a h
    · exact irq_branch_quiet inst appInfo hw s a h
  · rw [handler_eq_body _ _ _ _ _ hI h2, hInfo,
      irq_body_transmit inst appInfo hw s source hM hT hSrc]
    simp [irq_report, hst]

/-- Consecutive handler calls on events of the transmit classes, with a `data_source`
that yields the bytes `bs`: the writes carry `bs` in order, with one `data_source` call
per byte and no `on_error` call. -/
theorem irq_sequence_transmit {σ : Type} (HW_I2C_INSTANCE_COUNT : Nat)
    (s_applicationInfo : Fin 2 → i2c_slave_info_t σ) (inst : Nat)
    (appInfo : i2c_slave_info_t σ) (source : uint8_t → σ → i2c_status_t × uint8_t × σ)
    (hI : inst < HW_I2C_INSTANCE_COUNT) (h2 : inst < 2)
    (hInfo : s_applicationInfo ⟨inst, h2⟩ = appInfo)
    (hSrc : appInfo.data_source = some source) :
    ∀ (hws : List I2CRegs) (bs : List uint8_t) (s : σ),
      hws.length = bs.length →
      (∀ hw ∈ hws, isAddressTransmit hw = true ∨ isContinueTransmit hw = true) →
      sourceYields source s bs = true →
      ∃ tr s',
        irq_sequence HW_I2C_INSTANCE_COUNT s_applicationInfo inst hws s = some (tr, s') ∧
        writtenBytes tr = bs ∧
        tr.countP Action.isDataWrite = bs.length ∧
        tr.countP Action.isDataSource = bs.length ∧
        tr.countP Action.isOnError = 0 := by
  intro hws
  induction hws with
  | nil =>
    intro bs s hlen _ _
    have hbs : bs = [] := List.length_eq_zero.mp hlen.symm
    subst hbs
    exact ⟨[], s, rfl, rfl, rfl, rfl, rfl⟩
  | cons hw hws ih =>
    intro bs s hlen hcl hy
    cases bs with
    | nil => simp at hlen
    | cons b bs =>
      simp only [sourceYields, Bool.and_eq_true, decide_eq_true_eq] at hy
      obtain ⟨⟨hst, hb⟩, hy'⟩ := hy
      obtain ⟨P, hP, hstep⟩ := handler_transmit_step HW_I2C_INSTANCE_COUNT
        s_applicationInfo inst hw s appInfo source hI h2 hInfo hSrc
        (hcl hw (List.mem_cons_self hw hws)) hst
      obtain ⟨tr, s', hseq, hwb, hcw, hcs, hce⟩ :=
        ih bs (source I2C_EMPTY_CHAR s).2.2 (by simpa using hlen)
          (fun x hx => hcl x (List.mem_cons_of_mem hw hx)) hy'
      have hPw : writtenBytes P = [] := writtenBytes_of_no_write P (fun a ha => (hP a ha).1)
      have hPcw : P.countP Action.isDataWrite = 0 :=
        List.countP_eq_zero.mpr (fun a ha => by simp [(hP a ha).1])
      have hPcs : P.countP Action.isDataSource = 0 :=
        List.countP_eq_zero.mpr (fun a ha => by simp [(hP a ha).2.1])
      have hPce : P.countP Action.isOnError = 0 :=
        List.countP_eq_zero.mpr (fun a ha => by simp [(hP a ha).2.2])
      refine ⟨(P ++ [data_source, i2c_hal_write inst (source I2C_EMPTY_CHAR s).2.1]) ++ tr,
        s', ?_, ?_, ?_, ?_, ?_⟩
      · simp [irq_sequence, hstep, hseq]
      · simp [writtenBytes_append, hPw, hwb, writtenBytes, hb]
      · simp [List.countP_append, hPcw, hcw, Action.isDataWrite]
      · simp [List.countP_append, hPcs, hcs, Action.isDataSource]
      · simp [List.countP_append, hPce, hce, Action.isOnError]

/-! ## Claims -/

/-- C1: on a valid instance, whatever the status bits read (the is-master path
included), the handler returns, the first action of its trace is the clear of the
pending interrupt of that instance, and no later action is a clear of the interrupt, so
the trace holds exactly one. -/
theorem C1_clear_interrupt_first_and_once {σ : Type} (HW_I2C_INSTANCE_COUNT : Nat)
    (s_applicationInfo : Fin 2 → i2c_slave_info_t σ) (inst : Nat) (hw : I2CRegs) (s : σ)
    (hI : inst < HW_I2C_INSTANCE_COUNT) (h2 : inst < 2) :
    ∃ rest s',
      i2c_slave_irq_handler HW_I2C_INSTANCE_COUNT s_applicationInfo inst hw s
        = some (i2c_hal_clear_interrupt inst :: rest, s') ∧
      rest.countP Action.isClearInterrupt = 0 ∧
      (i2c_hal_clear_interrupt inst :: rest).countP Action.isClearInterrupt = 1 := by
  rw [handler_eq_body _ _ _ _ _ hI h2]
  have ht := irq_body_trace inst (s_applicationInfo ⟨inst, h2⟩) hw s
  rw [irq_entry_eq, List.cons_append] at ht
  refine ⟨_, _, congrArg some (Prod.ext ht rfl), ?_, ?_⟩
  · cases hA : hw.arbitrationLost <;> cases hM : hw.isMaster <;>
      simp [Action.isClearInterrupt, List.countP_append, List.countP_cons,
        irq_branch_no_clear, irq_transmit_no_clear, irq_report_no_clear]
  · cases hA : hw.arbitrationLost <;> cases hM : hw.isMaster <;>
      simp [Action.isClearInterrupt, List.countP_append, List.countP_cons,
        irq_branch_no_clear, irq_transmit_no_clear, irq_report_no_clear]

/-- C2: slave mode, arbitration not lost, not addressed, current direction receive, a
`data_sink` registered.  The handler returns; its trace holds exactly one data-register
read and exactly one `data_sink` call, the call carrying the byte read and directly
following the read; no data-register write and no `data_source` call.  If the sink
returns success there is no `on_error` call; if it returns another status and
`on_error` is registered, there is exactly one `on_error` call, with
`kStatus_I2C_SlaveRxOverrun`, and it comes after the read and the sink call. -/
theorem C2_continue_receive {σ : Type} (HW_I2C_INSTANCE_COUNT : Nat)
    (s_applicationInfo : Fin 2 → i2c_slave_info_t σ) (inst : Nat) (hw : I2CRegs) (s : σ)
    (appInfo : i2c_slave_info_t σ) (sink : uint8_t → σ → i2c_status_t × σ)
    (hI : inst < HW_I2C_INSTANCE_COUNT) (h2 : inst < 2)
    (hInfo : s_applicationInfo ⟨inst, h2⟩ = appInfo)
    (hM : hw.isMaster = false) (hA : hw.arbitrationLost = false)
    (hS : hw.addressedAsSlave = false) (hD : hw.direction = kI2CReceive)
    (hSink : appInfo.data_sink = some sink) :
    ∃ tr s',
      i2c_slave_irq_handler HW_I2C_INSTANCE_COUNT s_applicationInfo inst hw s
        = some (tr, s') ∧
      tr.countP Action.isDataRead = 1 ∧
      tr.countP Action.isDataSink = 1 ∧
      (∃ pre post, tr = pre ++ [i2c_hal_read inst hw.data, data_sink hw.data] ++ post) ∧
      tr.countP Action.isDataWrite = 0 ∧
      tr.countP Action.isDataSource = 0 ∧
      ((sink hw.data s).1 = kStatus_I2C_Success → tr.countP Action.isOnError = 0) ∧
      ((sink hw.data s).1 ≠ kStatus_I2C_Success → appInfo.on_error.isSome = true →
        tr.countP Action.isOnError = 1 ∧
        ∃ pre, tr = pre ++ [i2c_hal_read inst hw.data, data_sink hw.data,
                            on_error kStatus_I2C_SlaveRxOverrun]) := by
  rw [handler_eq_body _ _ _ _ _ hI h2, hInfo]
  refine ⟨(irq_body inst appInfo hw s).1, (irq_body inst appInfo hw s).2, rfl, ?_⟩
  by_cases hst : (sink hw.data s).1 = kStatus_I2C_Success
  · refine ⟨?_, ?_, ⟨irq_entry inst hw ++ [i2c_hal_get_direction inst], [], ?_⟩, ?_, ?_, ?_, ?_⟩ <;>
      simp [irq_body, irq_entry, irq_branch, irq_transmit, irq_report, hM, hA, hS, hD,
        hSink, hst, Action.isDataRead, Action.isDataSink, Action.isDataWrite,
        Action.isDataSource, Action.isOnError]
  · cases hE : appInfo.on_error with
    | none =>
      refine ⟨?_, ?_, ⟨irq_entry inst hw ++ [i2c_hal_get_direction inst], [], ?_⟩,
        ?_, ?_, ?_, ?_⟩ <;>
      simp [irq_body, irq_entry, irq_branch, irq_transmit, irq_report, hM, hA, hS, hD,
        hSink, hst, hE, Action.isDataRead, Action.isDataSink, Action.isDataWrite,
        Action.isDataSource, Action.isOnError]
    | some notify =>
      refine ⟨?_, ?_, ⟨irq_entry inst hw ++ [i2c_hal_get_direction inst],
        [on_error kStatus_I2C_SlaveRxOverrun], ?_⟩, ?_, ?_, ?_,
        fun _ _ => ⟨?_, ⟨irq_entry inst hw ++ [i2c_hal_get_direction inst], ?_⟩⟩⟩ <;>
      simp [irq_body, irq_entry, irq_branch, irq_transmit, irq_report, hM, hA, hS, hD,
        hSink, hst, hE, Action.isDataRead, Action.isDataSink, Action.isDataWrite,
        Action.isDataSource, Action.isOnError]

/-- C3: slave mode, addressed as slave, hardware-reported slave direction transmit
(whatever the other bits).  The handler returns; its trace holds exactly one direction
change, to transmit, exactly one data-register write, no data-register read and no
`data_sink` call.  With a `data_source` registered it is called exactly once and the
byte it leaves is the byte written, directly after the call; with none registered there
is no `data_source` call and the byte written is `I2C_EMPTY_CHAR`, that is 0x00. -/
theorem C3_addressed_transmit {σ : Type} (HW_I2C_INSTANCE_COUNT : Nat)
    (s_applicationInfo : Fin 2 → i2c_slave_info_t σ) (inst : Nat) (hw : I2CRegs) (s : σ)
    (appInfo : i2c_slave_info_t σ)
    (hI : inst < HW_I2C_INSTANCE_COUNT) (h2 : inst < 2)
    (hInfo : s_applicationInfo ⟨inst, h2⟩ = appInfo)
    (hM : hw.isMaster = false) (hS : hw.addressedAsSlave = true)
    (hSD : hw.slaveDirection = kI2CTransmit) :
    ∃ tr s',
      i2c_slave_irq_handler HW_I2C_INSTANCE_COUNT s_applicationInfo inst hw s
        = some (tr, s') ∧
      tr.countP Action.isSetDirection = 1 ∧
      i2c_hal_set_direction inst kI2CTransmit ∈ tr ∧
      tr.countP Action.isDataWrite = 1 ∧
      tr.countP Action.isDataRead = 0 ∧
      tr.countP Action.isDataSink = 0 ∧
      (∀ source, appInfo.data_source = some source →
        tr.countP Action.isDataSource = 1 ∧
        writtenBytes tr = [(source I2C_EMPTY_CHAR s).2.1]) ∧
      (appInfo.data_source = none →
        tr.countP Action.isDataSource = 0 ∧ writtenBytes tr = [(0x00 : uint8_t)]) := by
  rw [handler_eq_body _ _ _ _ _ hI h2, hInfo]
  refine ⟨(irq_body inst appInfo hw s).1, (irq_body inst appInfo hw s).2, rfl, ?_⟩
  cases hA : hw.arbitrationLost <;> cases hSrc : appInfo.data_source <;>
    cases hE : appInfo.on_error <;>
    simp [irq_body, irq_entry, irq_branch, irq_transmit, irq_report, writtenBytes,
      Action.isDataRead, Action.isDataSink, Action.isDataWrite, Action.isDataSource,
      Action.isOnError, Action.isSetDirection, Action.isCallback, hM, hS, hSD, hA, hSrc, hE, I2C_EMPTY_CHAR] <;>
    split_ifs <;> simp [irq_body, irq_entry, irq_branch, irq_transmit, irq_report, writtenBytes,
      Action.isDataRead, Action.isDataSink, Action.isDataWrite, Action.isDataSource,
      Action.isOnError, Action.isSetDirection, Action.isCallback]

/-- C4: slave mode, addressed as slave, hardware-reported slave direction receive
(whatever the other bits).  The handler returns; its trace holds exactly one direction
change, to receive, directly followed by the one data-register read of the call; no
data-register write and no application callback (`data_sink`, `data_source`,
`on_error`); the value read reaches no callback and the application state is
unchanged. -/
theorem C4_addressed_receive {σ : Type} (HW_I2C_INSTANCE_COUNT : Nat)
    (s_applicationInfo : Fin 2 → i2c_slave_info_t σ) (inst : Nat) (hw : I2CRegs) (s : σ)
    (appInfo : i2c_slave_info_t σ)
    (hI : inst < HW_I2C_INSTANCE_COUNT) (h2 : inst < 2)
    (hInfo : s_applicationInfo ⟨inst, h2⟩ = appInfo)
    (hM : hw.isMaster = false) (hS : hw.addressedAsSlave = true)
    (hSD : hw.slaveDirection = kI2CReceive) :
    ∃ tr,
      i2c_slave_irq_handler HW_I2C_INSTANCE_COUNT s_applicationInfo inst hw s
        = some (tr, s) ∧
      tr.countP Action.isSetDirection = 1 ∧
      tr.countP Action.isDataRead = 1 ∧
      (∃ pre, tr = pre ++ [i2c_hal_set_direction inst kI2CReceive,
                          i2c_hal_read inst hw.data]) ∧
      tr.countP Action.isDataWrite = 0 ∧
      tr.countP Action.isCallback = 0 := by
  rw [handler_eq_body _ _ _ _ _ hI h2, hInfo]
  refine ⟨irq_entry inst hw ++ [i2c_hal_get_slave_direction inst,
    i2c_hal_set_direction inst kI2CReceive, i2c_hal_read inst hw.data], ?_, ?_, ?_,
    ⟨irq_entry inst hw ++ [i2c_hal_get_slave_direction inst], by simp⟩, ?_, ?_⟩ <;>
  cases hA : hw.arbitrationLost <;>
    simp [irq_body, irq_entry, irq_branch, irq_transmit, irq_report, writtenBytes,
      Action.isDataRead, Action.isDataSink, Action.isDataWrite, Action.isDataSource,
      Action.isOnError, Action.isSetDirection, Action.isCallback, hM, hS, hSD, hA]

/-- C5: slave mode, arbitration not lost, not addressed, current direction transmit,
receive-acknowledge bit false.  The handler returns; its trace holds exactly one
direction change, to receive, directly followed by the one data-register read of the
call; no data-register write and no application callback (`data_source`, `data_sink`,
`on_error`); the value read reaches no callback and the application state is
unchanged. -/
theorem C5_transmit_nack {σ : Type} (HW_I2C_INSTANCE_COUNT : Nat)
    (s_applicationInfo : Fin 2 → i2c_slave_info_t σ) (inst : Nat) (hw : I2CRegs) (s : σ)
    (appInfo : i2c_slave_info_t σ)
    (hI : inst < HW_I2C_INSTANCE_COUNT) (h2 : inst < 2)
    (hInfo : s_applicationInfo ⟨inst, h2⟩ = appInfo)
    (hM : hw.isMaster = false) (hA : hw.arbitrationLost = false)
    (hS : hw.addressedAsSlave = false) (hD : hw.direction = kI2CTransmit)
    (hAck : hw.receiveAck = false) :
    ∃ tr,
      i2c_slave_irq_handler HW_I2C_INSTANCE_COUNT s_applicationInfo inst hw s
        = some (tr, s) ∧
      tr.countP Action.isSetDirection = 1 ∧
      tr.countP Action.isDataRead = 1 ∧
      (∃ pre, tr = pre ++ [i2c_hal_set_direction inst kI2CReceive,
                          i2c_hal_read inst hw.data]) ∧
      tr.countP Action.isDataWrite = 0 ∧
      tr.countP Action.isCallback = 0 := by
  rw [handler_eq_body _ _ _ _ _ hI h2, hInfo]
  refine ⟨irq_entry inst hw ++ [i2c_hal_get_direction inst,
    i2c_hal_get_receive_ack inst, i2c_hal_set_direction inst kI2CReceive,
    i2c_hal_read inst hw.data], ?_, ?_, ?_,
    ⟨irq_entry inst hw ++ [i2c_hal_get_direction inst, i2c_hal_get_receive_ack inst],
      by simp⟩, ?_, ?_⟩ <;>
    simp [irq_body, irq_entry, irq_branch, irq_transmit, irq_report, writtenBytes,
      Action.isDataRead, Action.isDataSink, Action.isDataWrite, Action.isDataSource,
      Action.isOnError, Action.isSetDirection, Action.isCallback, hM, hS, hD, hA, hAck]

/-- C7: slave mode, arbitration lost, not addressed, `on_error` registered, whatever the
current direction and acknowledge bits.  The handler returns; its trace holds exactly
one `on_error` call, with `kStatus_I2C_AribtrationLost`, as its last action; no
data-register write, no data-register read, no direction change, no `data_source` call
and no `data_sink` call. -/
theorem C7_arbitration_lost {σ : Type} (HW_I2C_INSTANCE_COUNT : Nat)
    (s_applicationInfo : Fin 2 → i2c_slave_info_t σ) (inst : Nat) (hw : I2CRegs) (s : σ)
    (appInfo : i2c_slave_info_t σ) (notify : i2c_status_t → σ → σ)
    (hI : inst < HW_I2C_INSTANCE_COUNT) (h2 : inst < 2)
    (hInfo : s_applicationInfo ⟨inst, h2⟩ = appInfo)
    (hM : hw.isMaster = false) (hA : hw.arbitrationLost = true)
    (hS : hw.addressedAsSlave = false) (hE : appInfo.on_error = some notify) :
    ∃ tr,
      i2c_slave_irq_handler HW_I2C_INSTANCE_COUNT s_applicationInfo inst hw s
        = some (tr, notify kStatus_I2C_AribtrationLost s) ∧
      tr.countP Action.isOnError = 1 ∧
      (∃ pre, tr = pre ++ [on_error kStatus_I2C_AribtrationLost]) ∧
      tr.countP Action.isDataWrite = 0 ∧
      tr.countP Action.isDataRead = 0 ∧
      tr.countP Action.isSetDirection = 0 ∧
      tr.countP Action.isDataSource = 0 ∧
      tr.countP Action.isDataSink = 0 := by
  rw [handler_eq_body _ _ _ _ _ hI h2, hInfo]
  refine ⟨irq_entry inst hw ++ [on_error kStatus_I2C_AribtrationLost], ?_, ?_,
    ⟨irq_entry inst hw, rfl⟩, ?_, ?_, ?_, ?_, ?_⟩ <;>
    simp [irq_body, irq_entry, irq_branch, irq_transmit, irq_report, writtenBytes,
      Action.isDataRead, Action.isDataSink, Action.isDataWrite, Action.isDataSource,
      Action.isOnError, Action.isSetDirection, Action.isCallback, hM, hS, hA, hE]

/-- C6, the claim as stated fails: at `arbitrationLostEvent` the device is in slave mode,
not addressed, the current direction is transmit, the acknowledge bit is set and a
`data_source` is registered, yet the handler takes the arbitration-lost branch of line
95: it calls no `data_source` and writes no byte. -/
theorem C6_counterexample :
    arbitrationLostEvent.isMaster = false ∧
    arbitrationLostEvent.addressedAsSlave = false ∧
    arbitrationLostEvent.direction = kI2CTransmit ∧
    arbitrationLostEvent.receiveAck = true ∧
    (exampleTable 0).data_source = some exampleSource ∧
    i2c_slave_irq_handler 2 exampleTable 0 arbitrationLostEvent exampleApp
      = some ([i2c_hal_clear_interrupt 0, i2c_hal_was_arbitration_lost 0,
                i2c_hal_clear_arbitration_lost 0, i2c_hal_is_addressed_as_slave 0,
                i2c_hal_is_master 0, on_error kStatus_I2C_AribtrationLost],
              ⟨[0x11, 0x22, 0x33], [], [kStatus_I2C_AribtrationLost]⟩) ∧
    List.countP Action.isDataSource
      [i2c_hal_clear_interrupt 0, i2c_hal_was_arbitration_lost 0,
        i2c_hal_clear_arbitration_lost 0, i2c_hal_is_addressed_as_slave 0,
        i2c_hal_is_master 0, on_error kStatus_I2C_AribtrationLost] = 0 ∧
    writtenBytes
      [i2c_hal_clear_interrupt 0, i2c_hal_was_arbitration_lost 0,
        i2c_hal_clear_arbitration_lost 0, i2c_hal_is_addressed_as_slave 0,
        i2c_hal_is_master 0, on_error kStatus_I2C_AribtrationLost] = [] :=
  ⟨rfl, rfl, rfl, rfl, rfl, by decide, by decide, by decide⟩

/-- C6, amended: slave mode, arbitration not lost, not addressed, current direction
transmit, receive-acknowledge bit true, a `data_source` registered.  The handler
returns; its trace holds exactly one `data_source` call and exactly one data-register
write, and the byte written is the byte the `data_source` left. -/
theorem C6_transmit_ack {σ : Type} (HW_I2C_INSTANCE_COUNT : Nat)
    (s_applicationInfo : Fin 2 → i2c_slave_info_t σ) (inst : Nat) (hw : I2CRegs) (s : σ)
    (appInfo : i2c_slave_info_t σ) (source : uint8_t → σ → i2c_status_t × uint8_t × σ)
    (hI : inst < HW_I2C_INSTANCE_COUNT) (h2 : inst < 2)
    (hInfo : s_applicationInfo ⟨inst, h2⟩ = appInfo)
    (hM : hw.isMaster = false) (hA : hw.arbitrationLost = false)
    (hS : hw.addressedAsSlave = false) (hD : hw.direction = kI2CTransmit)
    (hAck : hw.receiveAck = true) (hSrc : appInfo.data_source = some source) :
    ∃ tr s',
      i2c_slave_irq_handler HW_I2C_INSTANCE_COUNT s_applicationInfo inst hw s
        = some (tr, s') ∧
      tr.countP Action.isDataSource = 1 ∧
      tr.countP Action.isDataWrite = 1 ∧
      writtenBytes tr = [(source I2C_EMPTY_CHAR s).2.1] := by
  rw [handler_eq_body _ _ _ _ _ hI h2, hInfo]
  refine ⟨(irq_body inst appInfo hw s).1, (irq_body inst appInfo hw s).2, rfl, ?_⟩
  cases hE : appInfo.on_error
  · simp [irq_body, irq_entry, irq_branch, irq_transmit, irq_report, writtenBytes,
      Action.isDataRead, Action.isDataSink, Action.isDataWrite, Action.isDataSource,
      Action.isOnError, Action.isSetDirection, Action.isCallback, hM, hS, hD, hA, hAck, hSrc, hE]
  · simp [irq_body, irq_entry, irq_branch, irq_transmit, irq_report, writtenBytes,
      Action.isDataRead, Action.isDataSink, Action.isDataWrite, Action.isDataSource,
      Action.isOnError, Action.isSetDirection, Action.isCallback, hM, hS, hD, hA, hAck, hSrc, hE]
    split_ifs <;> simp [irq_body, irq_entry, irq_branch, irq_transmit, irq_report, writtenBytes,
      Action.isDataRead, Action.isDataSink, Action.isDataWrite, Action.isDataSource,
      Action.isOnError, Action.isSetDirection, Action.isCallback]

/-- C9: slave mode, the branch on the status bits sets `doTransmit`, a `data_source` is
registered and returns a status `st` other than success.  The handler returns; its
trace holds exactly one data-register write, carrying the byte the `data_source` left
(0x00 when it stored none); the local `error` ends as `st`; with `on_error` registered
the trace ends with the write followed by the one `on_error` call, with `st`. -/
theorem C9_source_failure {σ : Type} (HW_I2C_INSTANCE_COUNT : Nat)
    (s_applicationInfo : Fin 2 → i2c_slave_info_t σ) (inst : Nat) (hw : I2CRegs) (s : σ)
    (appInfo : i2c_slave_info_t σ) (source : uint8_t → σ → i2c_status_t × uint8_t × σ)
    (st : i2c_status_t)
    (hI : inst < HW_I2C_INSTANCE_COUNT) (h2 : inst < 2)
    (hInfo : s_applicationInfo ⟨inst, h2⟩ = appInfo)
    (hM : hw.isMaster = false)
    (hT : (irq_branch inst appInfo hw s).2.1 = true)
    (hSrc : appInfo.data_source = some source)
    (hst : (source I2C_EMPTY_CHAR s).1 = st) (hne : st ≠ kStatus_I2C_Success) :
    ∃ tr s',
      i2c_slave_irq_handler HW_I2C_INSTANCE_COUNT s_applicationInfo inst hw s
        = some (tr, s') ∧
      tr.countP Action.isDataWrite = 1 ∧
      writtenBytes tr = [(source I2C_EMPTY_CHAR s).2.1] ∧
      ((source I2C_EMPTY_CHAR s).2.1 = I2C_EMPTY_CHAR →
        writtenBytes tr = [(0x00 : uint8_t)]) ∧
      irq_error inst appInfo hw s = st ∧
      (appInfo.on_error.isSome = true →
        tr.countP Action.isOnError = 1 ∧
        ∃ pre, tr = pre ++ [i2c_hal_write inst (source I2C_EMPTY_CHAR s).2.1,
                            on_error st]) := by
  rw [handler_eq_body _ _ _ _ _ hI h2, hInfo]
  subst hst
  have hb := irq_body_transmit inst appInfo hw s source hM hT hSrc
  have hq : ∀ a ∈ irq_entry inst hw ++ (irq_branch inst appInfo hw s).1,
      a.isDataWrite = false ∧ a.isDataSource = false ∧ a.isOnError = false := by
    intro a ha
    rcases List.mem_append.mp ha with h | h
    · exact irq_entry_quiet inst hw a h
    · exact irq_branch_quiet inst appInfo hw s a h
  have hw0 : writtenBytes (irq_entry inst hw ++ (irq_branch inst appInfo hw s).1) = [] :=
    writtenBytes_of_no_write _ (fun a ha => (hq a ha).1)
  have hc0 : (irq_entry inst hw ++ (irq_branch inst appInfo hw s).1).countP
      Action.isDataWrite = 0 :=
    List.countP_eq_zero.mpr (fun a ha => by simp [(hq a ha).1])
  have he0 : (irq_entry inst hw ++ (irq_branch inst appInfo hw s).1).countP
      Action.isOnError = 0 :=
    List.countP_eq_zero.mpr (fun a ha => by simp [(hq a ha).2.2])
  have herr : irq_error inst appInfo hw s = (source I2C_EMPTY_CHAR s).1 := by
    have h3 := (irq_branch_doTransmit inst appInfo hw s hT).2
    simp [irq_error, irq_transmit, hT, hSrc, h3]
  cases hE : appInfo.on_error with
  | none =>
    have hr : irq_report appInfo (source I2C_EMPTY_CHAR s).1 (source I2C_EMPTY_CHAR s).2.2
        = ([], (source I2C_EMPTY_CHAR s).2.2) := by
      simp [irq_report, hE]
    rw [hr] at hb
    refine ⟨_, _, congrArg some hb, ?_, ?_, ?_, herr, ?_⟩
    · simp only [List.append_nil, List.countP_append, hc0]
      simp [Action.isDataWrite]
    · simp only [List.append_nil, writtenBytes_append, hw0]
      simp [writtenBytes]
    · intro h
      simp only [List.append_nil, writtenBytes_append, hw0]
      simp only [writtenBytes, List.nil_append]
      exact congrArg (fun b => [b]) h
    · intro h
      simp at h
  | some notify =>
    have hr : irq_report appInfo (source I2C_EMPTY_CHAR s).1 (source I2C_EMPTY_CHAR s).2.2
        = ([on_error (source I2C_EMPTY_CHAR s).1],
            notify (source I2C_EMPTY_CHAR s).1 (source I2C_EMPTY_CHAR s).2.2) := by
      simp [irq_report, hE, hne]
    rw [hr] at hb
    refine ⟨_, _, congrArg some hb, ?_, ?_, ?_, herr, ?_⟩
    · simp only [List.countP_append, hc0]
      simp [Action.isDataWrite]
    · simp only [writtenBytes_append, hw0]
      simp [writtenBytes]
    · intro h
      simp only [writtenBytes_append, hw0]
      simp only [writtenBytes, List.nil_append]
      exact congrArg (fun b => [b]) h
    · intro _
      refine ⟨?_, irq_entry inst hw ++ (irq_branch inst appInfo hw s).1 ++ [data_source],
        by simp⟩
      simp only [List.countP_append, he0]
      simp [Action.isOnError]

/-- C8: round trip of the transmit path.  A `data_source` is registered that, called
again and again from state `s`, returns success and leaves the bytes `bs`; the handler
is called once per byte (so `bs` is not empty), first on an address-match event with
hardware slave direction transmit, then on not-addressed, arbitration-not-lost,
direction-transmit, acknowledged events, all in slave mode.  Every call returns, and the
whole trace writes exactly the bytes `bs` to the data register, in order, with as many
writes and as many `data_source` calls as bytes, and no `on_error` call. -/
theorem C8_transmit_round_trip {σ : Type} (HW_I2C_INSTANCE_COUNT : Nat)
    (s_applicationInfo : Fin 2 → i2c_slave_info_t σ) (inst : Nat)
    (appInfo : i2c_slave_info_t σ) (source : uint8_t → σ → i2c_status_t × uint8_t × σ)
    (bs : List uint8_t) (hw0 : I2CRegs) (hws : List I2CRegs) (s : σ)
    (hI : inst < HW_I2C_INSTANCE_COUNT) (h2 : inst < 2)
    (hInfo : s_applicationInfo ⟨inst, h2⟩ = appInfo)
    (hSrc : appInfo.data_source = some source)
    (hY : sourceYields source s bs = true)
    (h0 : isAddressTransmit hw0 = true)
    (hrest : ∀ hw ∈ hws, isContinueTransmit hw = true)
    (hlen : (hw0 :: hws).length = bs.length) :
    ∃ tr s',
      irq_sequence HW_I2C_INSTANCE_COUNT s_applicationInfo inst (hw0 :: hws) s
        = some (tr, s') ∧
      writtenBytes tr = bs ∧
      tr.countP Action.isDataWrite = bs.length ∧
      tr.countP Action.isDataSource = bs.length ∧
      tr.countP Action.isOnError = 0 := by
  refine irq_sequence_transmit HW_I2C_INSTANCE_COUNT s_applicationInfo inst appInfo source
    hI h2 hInfo hSrc (hw0 :: hws) bs s hlen ?_ hY
  intro hw hmem
  rcases List.mem_cons.mp hmem with h | h
  · exact Or.inl (h ▸ h0)
  · exact Or.inr (hrest hw h)

/-- C10: on a valid instance, for every input, the handler returns and its trace holds
at most one `on_error` call, none with `kStatus_I2C_Success`, and an `on_error` call in
the trace is its last action: no register access and no callback follows it. -/
theorem C10_on_error_once_and_last {σ : Type} (HW_I2C_INSTANCE_COUNT : Nat)
    (s_applicationInfo : Fin 2 → i2c_slave_info_t σ) (inst : Nat) (hw : I2CRegs) (s : σ)
    (hI : inst < HW_I2C_INSTANCE_COUNT) (h2 : inst < 2) :
    ∃ tr s',
      i2c_slave_irq_handler HW_I2C_INSTANCE_COUNT s_applicationInfo inst hw s
        = some (tr, s') ∧
      tr.countP Action.isOnError ≤ 1 ∧
      on_error kStatus_I2C_Success ∉ tr ∧
      ∀ e, on_error e ∈ tr → e ≠ kStatus_I2C_Success ∧ tr.getLast? = some (on_error e) := by
  rw [handler_eq_body _ _ _ _ _ hI h2]
  generalize s_applicationInfo ⟨inst, h2⟩ = appInfo
  refine ⟨(irq_body inst appInfo hw s).1, (irq_body inst appInfo hw s).2, rfl, ?_⟩
  rw [irq_body_trace]
  cases hM : hw.isMaster
  · simp only [Bool.false_eq_true, if_false, ← List.append_assoc]
    refine on_error_last_of_shape _ _ ?_ ?_
    · intro a ha
      rcases List.mem_append.mp ha with h | h
      · rcases List.mem_append.mp h with h | h
        · exact (irq_entry_quiet inst hw a h).2.2
        · exact (irq_branch_quiet inst appInfo hw s a h).2.2
      · exact irq_transmit_no_on_error _ _ _ _ _ a h
    · rcases irq_report_cases appInfo
        (irq_transmit inst appInfo (irq_branch inst appInfo hw s).2.1
          (irq_branch inst appInfo hw s).2.2.1 (irq_branch inst appInfo hw s).2.2.2).2.1
        (irq_transmit inst appInfo (irq_branch inst appInfo hw s).2.1
          (irq_branch inst appInfo hw s).2.2.1 (irq_branch inst appInfo hw s).2.2.2).2.2
        with h | ⟨hne, h⟩
      · exact Or.inl h
      · exact Or.inr ⟨_, hne, h⟩
  · simp only [if_true]
    exact on_error_last_of_shape _ _ (fun a ha => (irq_entry_quiet inst hw a ha).2.2)
      (Or.inl rfl)

/-! ## The claims at concrete inputs -/

/-- C1 at an event in master mode on instance 1: the trace starts with the clear of the
interrupt of instance 1 and holds no other. -/
theorem C1_clear_interrupt_first_and_once_witness :
    ∃ rest s',
      i2c_slave_irq_handler 2 exampleTable 1 masterEvent exampleApp
        = some (i2c_hal_clear_interrupt 1 :: rest, s') ∧
      rest.countP Action.isClearInterrupt = 0 ∧
      (i2c_hal_clear_interrupt 1 :: rest).countP Action.isClearInterrupt = 1 :=
  C1_clear_interrupt_first_and_once 2 exampleTable 1 masterEvent exampleApp
    (by decide) (by decide)

/-- C2 at the reception of 0x5A with a full buffer: one read, one sink call, and the
trace ends with the read, the sink call and the overrun report. -/
theorem C2_continue_receive_witness :
    ∃ tr s',
      i2c_slave_irq_handler 2 exampleTable 0 receiveEvent exampleAppFull = some (tr, s') ∧
      tr.countP Action.isDataRead = 1 ∧
      tr.countP Action.isDataSink = 1 ∧
      tr.countP Action.isDataWrite = 0 ∧
      tr.countP Action.isOnError = 1 ∧
      ∃ pre, tr = pre ++ [i2c_hal_read 0 0x5A, data_sink 0x5A,
                          on_error kStatus_I2C_SlaveRxOverrun] := by
  obtain ⟨tr, s', h, hr, hk, _, hw, _, _, he⟩ :=
    C2_continue_receive 2 exampleTable 0 receiveEvent exampleAppFull exampleInfo
      exampleSink (by decide) (by decide) rfl rfl rfl rfl rfl rfl
  exact ⟨tr, s', h, hr, hk, hw, (he (by decide) rfl).1, (he (by decide) rfl).2⟩

/-- C3 at an address match for a read, with the byte 0x11 next to send: one direction
change, one write, of 0x11, after one `data_source` call. -/
theorem C3_addressed_transmit_witness :
    ∃ tr s',
      i2c_slave_irq_handler 2 exampleTable 0 addressTransmitEvent exampleApp
        = some (tr, s') ∧
      tr.countP Action.isSetDirection = 1 ∧
      tr.countP Action.isDataWrite = 1 ∧
      tr.countP Action.isDataRead = 0 ∧
      tr.countP Action.isDataSource = 1 ∧
      writtenBytes tr = [(0x11 : uint8_t)] := by
  obtain ⟨tr, s', h, hd, _, hw, hr, _, hs, _⟩ :=
    C3_addressed_transmit 2 exampleTable 0 addressTransmitEvent exampleApp exampleInfo
      (by decide) (by decide) rfl rfl rfl rfl
  exact ⟨tr, s', h, hd, hw, hr, (hs exampleSource rfl).1, (hs exampleSource rfl).2⟩

/-- C4 at an address match for a write on instance 1. -/
theorem C4_addressed_receive_witness :
    ∃ tr,
      i2c_slave_irq_handler 2 exampleTable 1 addressReceiveEvent exampleApp
        = some (tr, exampleApp) ∧
      tr.countP Action.isSetDirection = 1 ∧
      tr.countP Action.isDataRead = 1 ∧
      (∃ pre, tr = pre ++ [i2c_hal_set_direction 1 kI2CReceive,
                          i2c_hal_read 1 addressReceiveEvent.data]) ∧
      tr.countP Action.isDataWrite = 0 ∧
      tr.countP Action.isCallback = 0 :=
  C4_addressed_receive 2 exampleTable 1 addressReceiveEvent exampleApp exampleInfo
    (by decide) (by decide) rfl rfl rfl rfl

/-- C5 at a byte sent and not acknowledged. -/
theorem C5_transmit_nack_witness :
    ∃ tr,
      i2c_slave_irq_handler 2 exampleTable 0 transmitNackEvent exampleApp
        = some (tr, exampleApp) ∧
      tr.countP Action.isSetDirection = 1 ∧
      tr.countP Action.isDataRead = 1 ∧
      (∃ pre, tr = pre ++ [i2c_hal_set_direction 0 kI2CReceive,
                          i2c_hal_read 0 transmitNackEvent.data]) ∧
      tr.countP Action.isDataWrite = 0 ∧
      tr.countP Action.isCallback = 0 :=
  C5_transmit_nack 2 exampleTable 0 transmitNackEvent exampleApp exampleInfo
    (by decide) (by decide) rfl rfl rfl rfl rfl rfl

/-- C6, amended, at a byte sent and acknowledged with 0x11 next to send. -/
theorem C6_transmit_ack_witness :
    ∃ tr s',
      i2c_slave_irq_handler 2 exampleTable 0 continueTransmitEvent exampleApp
        = some (tr, s') ∧
      tr.countP Action.isDataSource = 1 ∧
      tr.countP Action.isDataWrite = 1 ∧
      writtenBytes tr = [(0x11 : uint8_t)] :=
  C6_transmit_ack 2 exampleTable 0 continueTransmitEvent exampleApp exampleInfo
    exampleSource (by decide) (by decide) rfl rfl rfl rfl rfl rfl rfl

/-- C7 at arbitration lost while not addressed, direction transmit and acknowledge set:
the error is logged by the application and nothing is transferred. -/
theorem C7_arbitration_lost_witness :
    ∃ tr,
      i2c_slave_irq_handler 2 exampleTable 0 arbitrationLostEvent exampleApp
        = some (tr, ⟨[0x11, 0x22, 0x33], [], [kStatus_I2C_AribtrationLost]⟩) ∧
      tr.countP Action.isOnError = 1 ∧
      (∃ pre, tr = pre ++ [on_error kStatus_I2C_AribtrationLost]) ∧
      tr.countP Action.isDataWrite = 0 ∧
      tr.countP Action.isDataRead = 0 ∧
      tr.countP Action.isSetDirection = 0 ∧
      tr.countP Action.isDataSource = 0 ∧
      tr.countP Action.isDataSink = 0 :=
  C7_arbitration_lost 2 exampleTable 0 arbitrationLostEvent exampleApp exampleInfo
    exampleOnError (by decide) (by decide) rfl rfl rfl rfl rfl

/-- C8 at the bytes 0x11, 0x22, 0x33: an address match for a read followed by two
acknowledged bytes writes exactly these three bytes, in order. -/
theorem C8_transmit_round_trip_witness :
    ∃ tr s',
      irq_sequence 2 exampleTable 0
        [addressTransmitEvent, continueTransmitEvent, continueTransmitEvent] exampleApp
        = some (tr, s') ∧
      writtenBytes tr = [(0x11 : uint8_t), 0x22, 0x33] ∧
      tr.countP Action.isDataWrite = 3 ∧
      tr.countP Action.isDataSource = 3 ∧
      tr.countP Action.isOnError = 0 :=
  C8_transmit_round_trip 2 exampleTable 0 exampleInfo exampleSource [0x11, 0x22, 0x33]
    addressTransmitEvent [continueTransmitEvent, continueTransmitEvent] exampleApp
    (by decide) (by decide) rfl rfl (by decide) (by decide) (by decide) (by decide)

/-- C9 at an address match for a read with nothing left to send: the source stores no
byte and fails with status 7; 0x00 is written, then the failure is reported. -/
theorem C9_source_failure_witness :
    ∃ tr s',
      i2c_slave_irq_handler 2 exampleTable 0 addressTransmitEvent exampleAppDrained
        = some (tr, s') ∧
      tr.countP Action.isDataWrite = 1 ∧
      writtenBytes tr = [(0x00 : uint8_t)] ∧
      irq_error 0 exampleInfo addressTransmitEvent exampleAppDrained = other 7 ∧
      tr.countP Action.isOnError = 1 ∧
      ∃ pre, tr = pre ++ [i2c_hal_write 0 0x00, on_error (other 7)] := by
  obtain ⟨tr, s', h, hw, _, hz, he, hr⟩ :=
    C9_source_failure 2 exampleTable 0 addressTransmitEvent exampleAppDrained exampleInfo
      exampleSource (other 7) (by decide) (by decide) rfl rfl rfl rfl rfl (by decide)
  exact ⟨tr, s', h, hw, hz rfl, he, (hr rfl).1, (hr rfl).2⟩

/-- C10 at the reception of a byte with a full buffer. -/
theorem C10_on_error_once_and_last_witness :
    ∃ tr s',
      i2c_slave_irq_handler 2 exampleTable 0 receiveEvent exampleAppFull = some (tr, s') ∧
      tr.countP Action.isOnError ≤ 1 ∧
      on_error kStatus_I2C_Success ∉ tr ∧
      ∀ e, on_error e ∈ tr → e ≠ kStatus_I2C_Success ∧ tr.getLast? = some (on_error e) :=
  C10_on_error_once_and_last 2 exampleTable 0 receiveEvent exampleAppFull
    (by decide) (by decide)

/-! ## Counting the actions of each stage -/

/-- The entry sequence holds no direction change, no data-register access and no
callback. -/
theorem irq_entry_counts (inst : Nat) (hw : I2CRegs) :
    (irq_entry inst hw).countP Action.isSetDirection = 0 ∧
    (irq_entry inst hw).countP Action.isDataRead = 0 ∧
    (irq_entry inst hw).countP Action.isDataWrite = 0 ∧
    (irq_entry inst hw).countP Action.isDataSource = 0 ∧
    (irq_entry inst hw).countP Action.isDataSink = 0 ∧
    (irq_entry inst hw).countP Action.isOnError = 0 ∧
    (irq_entry inst hw).countP Action.isCallback = 0 := by
  cases hA : hw.arbitrationLost <;>
    simp [irq_entry, hA, Action.isDataRead, Action.isDataSink, Action.isDataWrite, Action.isDataSource,
      Action.isOnError, Action.isSetDirection, Action.isCallback]

/-- The branch on the status bits: no write, no `data_source`, no `on_error`; at most
one direction change; a data-register read or a `data_sink` call only when
`doTransmit` stays false, and then at most one of each. -/
theorem irq_branch_counts {σ : Type} (inst : Nat) (appInfo : i2c_slave_info_t σ)
    (hw : I2CRegs) (s : σ) :
    (irq_branch inst appInfo hw s).1.countP Action.isDataWrite = 0 ∧
    (irq_branch inst appInfo hw s).1.countP Action.isDataSource = 0 ∧
    (irq_branch inst appInfo hw s).1.countP Action.isOnError = 0 ∧
    (irq_branch inst appInfo hw s).1.countP Action.isSetDirection ≤ 1 ∧
    (irq_branch inst appInfo hw s).1.countP Action.isDataRead ≤ 1 ∧
    (irq_branch inst appInfo hw s).1.countP Action.isDataSink ≤ 1 ∧
    (irq_branch inst appInfo hw s).1.countP Action.isCallback
      = (irq_branch inst appInfo hw s).1.countP Action.isDataSink ∧
    ((irq_branch inst appInfo hw s).2.1 = true →
      (irq_branch inst appInfo hw s).1.countP Action.isDataRead = 0 ∧
      (irq_branch inst appInfo hw s).1.countP Action.isDataSink = 0) := by
  obtain ⟨a, ad, m, sd, d, ack, data⟩ := hw
  cases a <;> cases ad <;> cases sd <;> cases d <;> cases ack <;>
    cases hSk : appInfo.data_sink <;>
    simp [irq_branch, hSk, Action.isDataRead, Action.isDataSink, Action.isDataWrite, Action.isDataSource,
      Action.isOnError, Action.isSetDirection, Action.isCallback]

/-- The transmit action: exactly one write when `doTransmit` is set and none otherwise;
at most one `data_source` call, only when `doTransmit` is set; nothing else. -/
theorem irq_transmit_counts {σ : Type} (inst : Nat) (appInfo : i2c_slave_info_t σ)
    (d : Bool) (e : i2c_status_t) (s : σ) :
    (irq_transmit inst appInfo d e s).1.countP Action.isDataWrite = (if d then 1 else 0) ∧
    (irq_transmit inst appInfo d e s).1.countP Action.isDataSource ≤ (if d then 1 else 0) ∧
    (irq_transmit inst appInfo d e s).1.countP Action.isDataRead = 0 ∧
    (irq_transmit inst appInfo d e s).1.countP Action.isSetDirection = 0 ∧
    (irq_transmit inst appInfo d e s).1.countP Action.isDataSink = 0 ∧
    (irq_transmit inst appInfo d e s).1.countP Action.isOnError = 0 ∧
    (irq_transmit inst appInfo d e s).1.countP Action.isCallback
      = (irq_transmit inst appInfo d e s).1.countP Action.isDataSource := by
  cases d <;> cases hSrc : appInfo.data_source <;>
    simp [irq_transmit, hSrc, Action.isDataRead, Action.isDataSink, Action.isDataWrite, Action.isDataSource,
      Action.isOnError, Action.isSetDirection, Action.isCallback]

/-- The report stage: at most one `on_error` call, none when the error is success;
nothing else. -/
theorem irq_report_counts {σ : Type} (appInfo : i2c_slave_info_t σ) (e : i2c_status_t)
    (s : σ) :
    (irq_report appInfo e s).1.countP Action.isOnError ≤ 1 ∧
    (e = kStatus_I2C_Success → (irq_report appInfo e s).1.countP Action.isOnError = 0) ∧
    (irq_report appInfo e s).1.countP Action.isDataWrite = 0 ∧
    (irq_report appInfo e s).1.countP Action.isDataRead = 0 ∧
    (irq_report appInfo e s).1.countP Action.isSetDirection = 0 ∧
    (irq_report appInfo e s).1.countP Action.isDataSource = 0 ∧
    (irq_report appInfo e s).1.countP Action.isDataSink = 0 ∧
    (irq_report appInfo e s).1.countP Action.isCallback
      = (irq_report appInfo e s).1.countP Action.isOnError := by
  by_cases he : e = kStatus_I2C_Success <;> cases hE : appInfo.on_error <;>
    simp [irq_report, he, hE, Action.isDataRead, Action.isDataSink, Action.isDataWrite, Action.isDataSource,
      Action.isOnError, Action.isSetDirection, Action.isCallback]

/-! ## Claims on the master path and on the counts of a call -/

/-- C11: when the hardware reports master mode the handler returns right after its entry
reads, whatever the arbitration-lost, addressed, direction and acknowledge bits: the
trace is the entry sequence alone, with no application callback (no `on_error` even when
arbitration was lost), no data-register read or write and no direction change, and the
application state is unchanged. -/
theorem C11_master_abort {σ : Type} (HW_I2C_INSTANCE_COUNT : Nat)
    (s_applicationInfo : Fin 2 → i2c_slave_info_t σ) (inst : Nat) (hw : I2CRegs) (s : σ)
    (hI : inst < HW_I2C_INSTANCE_COUNT) (h2 : inst < 2) (hM : hw.isMaster = true) :
    ∃ tr,
      i2c_slave_irq_handler HW_I2C_INSTANCE_COUNT s_applicationInfo inst hw s
        = some (tr, s) ∧
      tr = irq_entry inst hw ∧
      tr.countP Action.isCallback = 0 ∧
      tr.countP Action.isOnError = 0 ∧
      tr.countP Action.isDataRead = 0 ∧
      tr.countP Action.isDataWrite = 0 ∧
      tr.countP Action.isSetDirection = 0 := by
  obtain ⟨hd, hr, hw', _, _, he, hc⟩ := irq_entry_counts inst hw
  refine ⟨irq_entry inst hw, ?_, rfl, hc, he, hr, hw', hd⟩
  rw [handler_eq_body _ _ _ _ _ hI h2]
  simp [irq_body, hM]

/-- The counts of a whole call, in slave mode or not: at most one data-register access
in total, at most one direction change, at most one data callback and at most one
`on_error` call, which needs a final error other than success. -/
theorem irq_body_counts {σ : Type} (inst : Nat) (appInfo : i2c_slave_info_t σ)
    (hw : I2CRegs) (s : σ) :
    (irq_body inst appInfo hw s).1.countP Action.isDataRead
      + (irq_body inst appInfo hw s).1.countP Action.isDataWrite ≤ 1 ∧
    (irq_body inst appInfo hw s).1.countP Action.isSetDirection ≤ 1 ∧
    (irq_body inst appInfo hw s).1.countP Action.isDataSource
      + (irq_body inst appInfo hw s).1.countP Action.isDataSink ≤ 1 ∧
    (irq_body inst appInfo hw s).1.countP Action.isOnError ≤ 1 ∧
    (irq_body inst appInfo hw s).1.countP Action.isCallback
      = (irq_body inst appInfo hw s).1.countP Action.isDataSource
        + (irq_body inst appInfo hw s).1.countP Action.isDataSink
        + (irq_body inst appInfo hw s).1.countP Action.isOnError ∧
    (irq_error inst appInfo hw s = kStatus_I2C_Success →
      (irq_body inst appInfo hw s).1.countP Action.isOnError = 0) := by
  rw [irq_body_trace]
  have herr : irq_error inst appInfo hw s
      = (irq_transmit inst appInfo (irq_branch inst appInfo hw s).2.1
          (irq_branch inst appInfo hw s).2.2.1 (irq_branch inst appInfo hw s).2.2.2).2.1 :=
    rfl
  rw [herr]
  obtain ⟨e1, e2, e3, e4, e5, e6, e7⟩ := irq_entry_counts inst hw
  obtain ⟨b1, b2, b3, b4, b5, b6, b7, b8⟩ := irq_branch_counts inst appInfo hw s
  generalize irq_branch inst appInfo hw s = B at *
  obtain ⟨bt, bd, be, bs⟩ := B
  simp only at b1 b2 b3 b4 b5 b6 b7 b8 ⊢
  obtain ⟨t1, t2, t3, t4, t5, t6, t7⟩ := irq_transmit_counts inst appInfo bd be bs
  generalize irq_transmit inst appInfo bd be bs = T at *
  obtain ⟨r1, r2, r3, r4, r5, r6, r7, r8⟩ := irq_report_counts appInfo T.2.1 T.2.2
  generalize irq_report appInfo T.2.1 T.2.2 = R at *
  cases hM : hw.isMaster
  · simp only [Bool.false_eq_true, if_false, List.countP_append]
    cases bd
    · simp only [Bool.false_eq_true, if_false] at t1 t2
      refine ⟨by omega, by omega, by omega, by omega, by omega, ?_⟩
      intro h
      have := r2 h
      omega
    · simp only [if_true] at t1 t2
      obtain ⟨b9, b10⟩ := b8 rfl
      refine ⟨by omega, by omega, by omega, by omega, by omega, ?_⟩
      intro h
      have := r2 h
      omega
  · simp only [if_true, List.append_nil]
    exact ⟨by omega, by omega, by omega, by omega, by omega, fun _ => e6⟩

/-- C16, the claim as stated fails: when a byte is received and the registered
`data_sink` refuses it, the handler calls `data_sink` and then `on_error`, two
application callbacks in one call. -/
theorem C16_counterexample :
    i2c_slave_irq_handler 2 exampleTable 0 receiveEvent exampleAppFull
      = some ([i2c_hal_clear_interrupt 0, i2c_hal_was_arbitration_lost 0,
                i2c_hal_is_addressed_as_slave 0, i2c_hal_is_master 0,
                i2c_hal_get_direction 0, i2c_hal_read 0 0x5A, data_sink 0x5A,
                on_error kStatus_I2C_SlaveRxOverrun],
              ⟨[], [0x01, 0x02], [kStatus_I2C_SlaveRxOverrun]⟩) ∧
    List.countP Action.isCallback
      [i2c_hal_clear_interrupt 0, i2c_hal_was_arbitration_lost 0,
        i2c_hal_is_addressed_as_slave 0, i2c_hal_is_master 0,
        i2c_hal_get_direction 0, i2c_hal_read 0 0x5A, data_sink 0x5A,
        on_error kStatus_I2C_SlaveRxOverrun] = 2 :=
  ⟨by decide, by decide⟩

/-- C18: on a valid instance, for every input, the handler returns and its trace holds
at most one data-register write, at most one data-register read, at most one
data-register access in total (never both a read and a write), and at most one direction
change. -/
theorem C18_one_register_access {σ : Type} (HW_I2C_INSTANCE_COUNT : Nat)
    (s_applicationInfo : Fin 2 → i2c_slave_info_t σ) (inst : Nat) (hw : I2CRegs) (s : σ)
    (hI : inst < HW_I2C_INSTANCE_COUNT) (h2 : inst < 2) :
    ∃ tr s',
      i2c_slave_irq_handler HW_I2C_INSTANCE_COUNT s_applicationInfo inst hw s
        = some (tr, s') ∧
      tr.countP Action.isDataWrite ≤ 1 ∧
      tr.countP Action.isDataRead ≤ 1 ∧
      tr.countP Action.isDataRead + tr.countP Action.isDataWrite ≤ 1 ∧
      tr.countP Action.isSetDirection ≤ 1 := by
  rw [handler_eq_body _ _ _ _ _ hI h2]
  obtain ⟨c1, c2, _⟩ := irq_body_counts inst (s_applicationInfo ⟨inst, h2⟩) hw s
  exact ⟨(irq_body inst (s_applicationInfo ⟨inst, h2⟩) hw s).1,
    (irq_body inst (s_applicationInfo ⟨inst, h2⟩) hw s).2, rfl, by omega, by omega, c1, c2⟩

/-! ## Claims on the instance lifecycle -/

/-- On a valid instance a sequence of handler calls returns. -/
theorem irq_sequence_total {σ : Type} (HW_I2C_INSTANCE_COUNT : Nat)
    (s_applicationInfo : Fin 2 → i2c_slave_info_t σ) (inst : Nat)
    (hI : inst < HW_I2C_INSTANCE_COUNT) (h2 : inst < 2) :
    ∀ (hws : List I2CRegs) (s : σ), ∃ tr s',
      irq_sequence HW_I2C_INSTANCE_COUNT s_applicationInfo inst hws s = some (tr, s') := by
  intro hws
  induction hws with
  | nil => exact fun s => ⟨[], s, rfl⟩
  | cons hw hws ih =>
    intro s
    obtain ⟨tr, s', h⟩ := ih (irq_body inst (s_applicationInfo ⟨inst, h2⟩) hw s).2
    exact ⟨(irq_body inst (s_applicationInfo ⟨inst, h2⟩) hw s).1 ++ tr, s', by
      simp [irq_sequence, handler_eq_body _ _ _ _ _ hI h2, h]⟩

/-- A sequence of handler calls followed by one more call: the last call is the handler
run on the application state the earlier calls left. -/
theorem irq_sequence_snoc {σ : Type} (HW_I2C_INSTANCE_COUNT : Nat)
    (s_applicationInfo : Fin 2 → i2c_slave_info_t σ) (inst : Nat) (regs : I2CRegs) :
    ∀ (hws : List I2CRegs) (s : σ) (tr0 : List Action) (s0 : σ) (tr : List Action) (s' : σ),
      irq_sequence HW_I2C_INSTANCE_COUNT s_applicationInfo inst hws s = some (tr0, s0) →
      i2c_slave_irq_handler HW_I2C_INSTANCE_COUNT s_applicationInfo inst regs s0
        = some (tr, s') →
      irq_sequence HW_I2C_INSTANCE_COUNT s_applicationInfo inst (hws ++ [regs]) s
        = some (tr0 ++ tr, s') := by
  intro hws
  induction hws with
  | nil =>
    intro s tr0 s0 tr s' h0 h
    simp [irq_sequence] at h0
    obtain ⟨rfl, rfl⟩ := h0
    simp [irq_sequence, h]
  | cons hw hws ih =>
    intro s tr0 s0 tr s' h0 h
    simp only [irq_sequence, List.cons_append] at h0 ⊢
    cases h1 : i2c_slave_irq_handler HW_I2C_INSTANCE_COUNT s_applicationInfo inst hw s with
    | none => simp [h1] at h0
    | some r1 =>
      simp only [h1] at h0 ⊢
      cases h3 : irq_sequence HW_I2C_INSTANCE_COUNT s_applicationInfo inst hws r1.2 with
      | none => simp [h3] at h0
      | some r2 =>
        simp only [h3, Option.some.injEq, Prod.mk.injEq] at h0
        obtain ⟨rfl, rfl⟩ := h0
        have h4 := ih r1.2 r2.1 r2.2 tr s' (by rw [h3]) h
        simp only [List.append_eq, h4, List.append_assoc]

/-- On a valid instance and a non-null context `i2c_slave_init` returns the updated
table and its eleven steps. -/
theorem init_eq {σ : Type} (HW_I2C_INSTANCE_COUNT : Nat)
    (i2c_irq_ids : Nat → Nat) (s_applicationInfo : Fin 2 → i2c_slave_info_t σ)
    (inst : Nat) (c : i2c_slave_info_t σ)
    (hI : inst < HW_I2C_INSTANCE_COUNT) (h2 : inst < 2) :
    i2c_slave_init HW_I2C_INSTANCE_COUNT i2c_irq_ids s_applicationInfo inst (some c)
      = some (Function.update s_applicationInfo ⟨inst, h2⟩ c,
          [Effect.store_applicationInfo inst c,
           Effect.clock_manager_set_gate inst true,
           Effect.i2c_hal_set_independent_slave_baud inst true,
           Effect.i2c_hal_set_slave_address_7bit inst c.slaveAddress,
           Effect.i2c_hal_disable_interrupt inst,
           Effect.i2c_hal_clear_interrupt inst,
           Effect.i2c_set_shared_irq_is_master inst false,
           Effect.i2c_set_shared_irq_state inst c,
           Effect.interrupt_enable (i2c_irq_ids inst),
           Effect.i2c_hal_enable_interrupt inst,
           Effect.i2c_hal_enable inst]) := by
  simp only [i2c_slave_init, hI, h2, if_true, dite_true]

/-- C12: for a valid instance and a non-null context `c`, `i2c_slave_init` returns and
the table it leaves holds `c` at the instance, in all four fields, whatever was stored
before, and holds at every other index what it held before. -/
theorem C12_init_stores_context {σ : Type} (HW_I2C_INSTANCE_COUNT : Nat)
    (i2c_irq_ids : Nat → Nat) (s_applicationInfo : Fin 2 → i2c_slave_info_t σ)
    (inst : Nat) (c : i2c_slave_info_t σ)
    (hI : inst < HW_I2C_INSTANCE_COUNT) (h2 : inst < 2) :
    ∃ table effects,
      i2c_slave_init HW_I2C_INSTANCE_COUNT i2c_irq_ids s_applicationInfo inst (some c)
        = some (table, effects) ∧
      table ⟨inst, h2⟩ = c ∧
      (table ⟨inst, h2⟩).data_source = c.data_source ∧
      (table ⟨inst, h2⟩).data_sink = c.data_sink ∧
      (table ⟨inst, h2⟩).on_error = c.on_error ∧
      (table ⟨inst, h2⟩).slaveAddress = c.slaveAddress ∧
      ∀ j : Fin 2, j ≠ ⟨inst, h2⟩ → table j = s_applicationInfo j := by
  refine ⟨_, _, init_eq _ _ _ _ _ hI h2, ?_, ?_, ?_, ?_, ?_, ?_⟩
  · simp
  · simp
  · simp
  · simp
  · simp
  · intro j hj
    exact Function.update_noteq hj c s_applicationInfo

/-- C13: for a valid instance and a non-null context `c`, `i2c_slave_init` performs, in
this order: store of the context, clock gate on, independent slave baud on, 7-bit
address set to `c.slaveAddress`, peripheral interrupt disabled, pending interrupt
cleared, instance registered as not master and its context registered with the shared
IRQ layer, interrupt line enabled, peripheral interrupt enabled, peripheral enabled.  In
particular the store is first and precedes every interrupt enable, the interrupt
disable and clear precede every interrupt enable, and the peripheral enable is last. -/
theorem C13_init_order {σ : Type} (HW_I2C_INSTANCE_COUNT : Nat)
    (i2c_irq_ids : Nat → Nat) (s_applicationInfo : Fin 2 → i2c_slave_info_t σ)
    (inst : Nat) (c : i2c_slave_info_t σ)
    (hI : inst < HW_I2C_INSTANCE_COUNT) (h2 : inst < 2) :
    ∃ table effects,
      i2c_slave_init HW_I2C_INSTANCE_COUNT i2c_irq_ids s_applicationInfo inst (some c)
        = some (table, effects) ∧
      effects =
        [Effect.store_applicationInfo inst c,
         Effect.clock_manager_set_gate inst true,
         Effect.i2c_hal_set_independent_slave_baud inst true,
         Effect.i2c_hal_set_slave_address_7bit inst c.slaveAddress,
         Effect.i2c_hal_disable_interrupt inst,
         Effect.i2c_hal_clear_interrupt inst,
         Effect.i2c_set_shared_irq_is_master inst false,
         Effect.i2c_set_shared_irq_state inst c,
         Effect.interrupt_enable (i2c_irq_ids inst),
         Effect.i2c_hal_enable_interrupt inst,
         Effect.i2c_hal_enable inst] ∧
      effects.findIdx Effect.isStore = 0 ∧
      effects.countP Effect.isStore = 1 ∧
      effects.findIdx Effect.isStore < effects.findIdx Effect.isInterruptEnable ∧
      effects.findIdx Effect.isInterruptDisable < effects.findIdx Effect.isInterruptEnable ∧
      effects.findIdx Effect.isInterruptClear < effects.findIdx Effect.isInterruptEnable ∧
      effects.findIdx Effect.isInterruptDisable < effects.findIdx Effect.isInterruptClear ∧
      effects.countP Effect.isInterruptEnable = 2 ∧
      effects.getLast? = some (Effect.i2c_hal_enable inst) := by
  refine ⟨_, _, init_eq _ _ _ _ _ hI h2, rfl, ?_, ?_, ?_, ?_, ?_, ?_, ?_, ?_⟩
  all_goals
    simp [List.findIdx_cons, Effect.isStore, Effect.isInterruptEnable,
      Effect.isInterruptDisable, Effect.isInterruptClear]

/-- C14: over the flags of the peripherals, for a valid instance: `i2c_slave_init`
followed by `i2c_slave_shutdown` returns and leaves the instance with the peripheral
disabled, its interrupt line disabled and its clock gate off; and from any state
`i2c_slave_shutdown` returns and a second `i2c_slave_shutdown` changes nothing. -/
theorem C14_init_then_shutdown {σ : Type} (HW_I2C_INSTANCE_COUNT : Nat)
    (i2c_irq_ids : Nat → Nat) (d : Driver σ) (inst : Nat)
    (hI : inst < HW_I2C_INSTANCE_COUNT) :
    (∀ (_ : inst < 2) (c : i2c_slave_info_t σ), ∃ d1 d2,
      Driver.init HW_I2C_INSTANCE_COUNT i2c_irq_ids d inst (some c) = some d1 ∧
      Driver.shutdown HW_I2C_INSTANCE_COUNT i2c_irq_ids d1 inst = some d2 ∧
      d2.hw.enabled inst = false ∧
      d2.hw.irqLine (i2c_irq_ids inst) = false ∧
      d2.hw.clockGate inst = false) ∧
    (∃ d1,
      Driver.shutdown HW_I2C_INSTANCE_COUNT i2c_irq_ids d inst = some d1 ∧
      Driver.shutdown HW_I2C_INSTANCE_COUNT i2c_irq_ids d1 inst = some d1 ∧
      d1.hw.enabled inst = false ∧
      d1.hw.irqLine (i2c_irq_ids inst) = false ∧
      d1.hw.clockGate inst = false) := by
  constructor
  · intro h2 c
    simp [Driver.init, Driver.shutdown, i2c_slave_init, i2c_slave_shutdown, hI, h2,
      applyEffects, Effect.apply]
  · simp [Driver.shutdown, i2c_slave_shutdown, hI, applyEffects, Effect.apply]

/-- C15: on a valid instance, the handler and `i2c_slave_shutdown` return and leave the
whole table `s_applicationInfo` as it was, `i2c_slave_shutdown` performing no store; the
handler's result depends on the table only through the entry of its instance; and after
any earlier calls the next call is the handler run on the application state the earlier
callbacks left, nothing else being kept from one call to the next. -/
theorem C15_table_changed_only_by_init {σ : Type} (HW_I2C_INSTANCE_COUNT : Nat)
    (i2c_irq_ids : Nat → Nat) (d : Driver σ) (inst : Nat) (regs : I2CRegs)
    (hI : inst < HW_I2C_INSTANCE_COUNT) (h2 : inst < 2) :
    (∃ d1 tr,
      Driver.irq HW_I2C_INSTANCE_COUNT d inst regs = some (d1, tr) ∧
      d1.s_applicationInfo = d.s_applicationInfo) ∧
    (∃ d1 effects,
      Driver.shutdown HW_I2C_INSTANCE_COUNT i2c_irq_ids d inst = some d1 ∧
      d1.s_applicationInfo = d.s_applicationInfo ∧
      (i2c_slave_shutdown HW_I2C_INSTANCE_COUNT i2c_irq_ids inst :
        Option (List (Effect σ))) = some effects ∧
      effects.countP Effect.isStore = 0) ∧
    (∀ (other : Fin 2 → i2c_slave_info_t σ),
      other ⟨inst, h2⟩ = d.s_applicationInfo ⟨inst, h2⟩ →
      i2c_slave_irq_handler HW_I2C_INSTANCE_COUNT other inst regs d.app
        = i2c_slave_irq_handler HW_I2C_INSTANCE_COUNT d.s_applicationInfo inst regs d.app) ∧
    (∀ earlier : List I2CRegs, ∃ tr0 s0 tr s',
      irq_sequence HW_I2C_INSTANCE_COUNT d.s_applicationInfo inst earlier d.app
        = some (tr0, s0) ∧
      i2c_slave_irq_handler HW_I2C_INSTANCE_COUNT d.s_applicationInfo inst regs s0
        = some (tr, s') ∧
      irq_sequence HW_I2C_INSTANCE_COUNT d.s_applicationInfo inst (earlier ++ [regs]) d.app
        = some (tr0 ++ tr, s')) := by
  refine ⟨?_, ?_, ?_, ?_⟩
  · simp [Driver.irq, handler_eq_body _ _ _ _ _ hI h2]
  · simp [Driver.shutdown, i2c_slave_shutdown, hI, Effect.isStore]
  · intro other ho
    rw [handler_eq_body _ _ _ _ _ hI h2, handler_eq_body _ _ _ _ _ hI h2, ho]
  · intro earlier
    obtain ⟨tr0, s0, h0⟩ := irq_sequence_total HW_I2C_INSTANCE_COUNT d.s_applicationInfo
      inst hI h2 earlier d.app
    have h1 := handler_eq_body HW_I2C_INSTANCE_COUNT d.s_applicationInfo inst regs s0 hI h2
    exact ⟨tr0, s0, _, _, h0, h1,
      irq_sequence_snoc _ _ _ _ earlier d.app tr0 s0 _ _ h0 h1⟩

/-! ## Claims on the classification of events -/

/-- C19: two slave-mode calls on events that both have addressed-as-slave set, with the
same hardware-reported slave direction and the same data-register content, on the same
context and application state, whatever their arbitration-lost, current-direction and
acknowledge bits: both return, with the same direction change, data-register access and
callbacks in the same order and the same final application state.  The branch
classifies no error, arbitration lost or other, so the event is handled as a plain
address match and an `on_error` call can only carry the status `data_source`
returned: none with `kStatus_I2C_AribtrationLost` unless `data_source` itself returns
that status. -/
theorem C19_addressed_takes_precedence {σ : Type} (HW_I2C_INSTANCE_COUNT : Nat)
    (s_applicationInfo : Fin 2 → i2c_slave_info_t σ) (inst : Nat) (hw1 hw2 : I2CRegs)
    (s : σ) (appInfo : i2c_slave_info_t σ)
    (hI : inst < HW_I2C_INSTANCE_COUNT) (h2 : inst < 2)
    (hInfo : s_applicationInfo ⟨inst, h2⟩ = appInfo)
    (hM1 : hw1.isMaster = false) (hM2 : hw2.isMaster = false)
    (hS1 : hw1.addressedAsSlave = true) (hS2 : hw2.addressedAsSlave = true)
    (hSD : hw1.slaveDirection = hw2.slaveDirection) (hData : hw1.data = hw2.data) :
    ∃ tr1 tr2 s',
      i2c_slave_irq_handler HW_I2C_INSTANCE_COUNT s_applicationInfo inst hw1 s
        = some (tr1, s') ∧
      i2c_slave_irq_handler HW_I2C_INSTANCE_COUNT s_applicationInfo inst hw2 s
        = some (tr2, s') ∧
      transfers tr1 = transfers tr2 ∧
      (irq_branch inst appInfo hw1 s).2.2.1 = kStatus_I2C_Success ∧
      (∀ e, on_error e ∈ tr1 →
        ∃ source, appInfo.data_source = some source ∧
          e = (source I2C_EMPTY_CHAR s).1) ∧
      ((∀ source, appInfo.data_source = some source →
          (source I2C_EMPTY_CHAR s).1 ≠ kStatus_I2C_AribtrationLost) →
        on_error kStatus_I2C_AribtrationLost ∉ tr1) := by
  rw [handler_eq_body _ _ _ _ _ hI h2, handler_eq_body _ _ _ _ _ hI h2, hInfo]
  obtain ⟨a1, ad1, m1, sd1, d1, ack1, data1⟩ := hw1
  obtain ⟨a2, ad2, m2, sd2, d2, ack2, data2⟩ := hw2
  simp only at hM1 hM2 hS1 hS2 hSD hData
  subst hM1 hM2 hS1 hS2 hSD hData
  refine ⟨(irq_body inst appInfo ⟨a1, true, false, sd1, d1, ack1, data1⟩ s).1,
    (irq_body inst appInfo ⟨a2, true, false, sd1, d2, ack2, data1⟩ s).1,
    (irq_body inst appInfo ⟨a1, true, false, sd1, d1, ack1, data1⟩ s).2, rfl, ?_, ?_, ?_⟩
  · cases a1 <;> cases a2 <;> cases sd1 <;> simp [irq_body, irq_branch]
  · cases a1 <;> cases a2 <;> cases sd1 <;>
      simp [transfers, irq_body, irq_entry, irq_branch, Action.isDataRead, Action.isDataSink, Action.isDataWrite, Action.isDataSource,
      Action.isOnError, Action.isSetDirection, Action.isCallback, Action.isTransfer]
  · have hlast : ∀ e,
        on_error e ∈ (irq_body inst appInfo ⟨a1, true, false, sd1, d1, ack1, data1⟩ s).1 →
        ∃ source, appInfo.data_source = some source ∧
          e = (source I2C_EMPTY_CHAR s).1 := by
      cases a1 <;> cases sd1 <;> cases hSrc : appInfo.data_source <;>
        cases hE : appInfo.on_error <;>
        simp [irq_body, irq_entry, irq_branch, irq_transmit, irq_report, hSrc, hE] <;>
        split_ifs <;> simp
    refine ⟨?_, hlast, ?_⟩
    · cases a1 <;> cases sd1 <;> simp [irq_branch]
    · intro hno hmem
      obtain ⟨source, hs, he⟩ := hlast _ hmem
      exact hno source hs he.symm

/-- The spec's report step and the handler's report stage are the same function. -/
theorem spec_report_eq {σ : Type} (appInfo : i2c_slave_info_t σ) (e : i2c_status_t)
    (s : σ) : spec_report appInfo e s = irq_report appInfo e s := by
  cases e <;> cases hE : appInfo.on_error <;> simp [spec_report, irq_report, hE]

/-- Every action of the report stage is a callback. -/
theorem transfers_report {σ : Type} (appInfo : i2c_slave_info_t σ) (e : i2c_status_t)
    (s : σ) : transfers (irq_report appInfo e s).1 = (irq_report appInfo e s).1 := by
  by_cases he : e = kStatus_I2C_Success <;> cases hE : appInfo.on_error <;>
    simp [transfers, irq_report, he, hE, Action.isDataRead, Action.isDataSink, Action.isDataWrite, Action.isDataSource,
      Action.isOnError, Action.isSetDirection, Action.isCallback, Action.isTransfer]

/-- The entry sequence holds no direction change, data-register access or callback. -/
theorem transfers_entry (inst : Nat) (hw : I2CRegs) : transfers (irq_entry inst hw) = [] := by
  cases hA : hw.arbitrationLost <;> simp [transfers, irq_entry, hA, Action.isDataRead, Action.isDataSink, Action.isDataWrite, Action.isDataSource,
      Action.isOnError, Action.isSetDirection, Action.isCallback, Action.isTransfer]

/-- The handler's transmit action followed by its report stage is the spec's transmit
step, when the error is success on entry. -/
theorem spec_transmit_eq {σ : Type} (inst : Nat) (appInfo : i2c_slave_info_t σ) (s : σ) :
    (transfers (irq_transmit inst appInfo true kStatus_I2C_Success s).1
        ++ (irq_report appInfo (irq_transmit inst appInfo true kStatus_I2C_Success s).2.1
              (irq_transmit inst appInfo true kStatus_I2C_Success s).2.2).1,
      (irq_report appInfo (irq_transmit inst appInfo true kStatus_I2C_Success s).2.1
        (irq_transmit inst appInfo true kStatus_I2C_Success s).2.2).2)
    = spec_transmit inst appInfo s := by
  cases hSrc : appInfo.data_source <;>
    simp [transfers, irq_transmit, spec_transmit, spec_report_eq, hSrc, irq_report, Action.isDataRead, Action.isDataSink, Action.isDataWrite, Action.isDataSource,
      Action.isOnError, Action.isSetDirection, Action.isCallback, Action.isTransfer]

/-- The transfers of a slave-mode call, stage by stage. -/
theorem transfers_body {σ : Type} (inst : Nat) (appInfo : i2c_slave_info_t σ)
    (hw : I2CRegs) (s : σ) (hM : hw.isMaster = false) :
    transfers (irq_body inst appInfo hw s).1 =
      transfers (irq_branch inst appInfo hw s).1
        ++ transfers (irq_transmit inst appInfo (irq_branch inst appInfo hw s).2.1
              (irq_branch inst appInfo hw s).2.2.1 (irq_branch inst appInfo hw s).2.2.2).1
        ++ (irq_report appInfo
              (irq_transmit inst appInfo (irq_branch inst appInfo hw s).2.1
                (irq_branch inst appInfo hw s).2.2.1 (irq_branch inst appInfo hw s).2.2.2).2.1
              (irq_transmit inst appInfo (irq_branch inst appInfo hw s).2.1
                (irq_branch inst appInfo hw s).2.2.1
                (irq_branch inst appInfo hw s).2.2.2).2.2).1 := by
  rw [irq_body_trace]
  simp only [hM, Bool.false_eq_true, if_false]
  have h := transfers_entry inst hw
  have hr := transfers_report appInfo
    (irq_transmit inst appInfo (irq_branch inst appInfo hw s).2.1
      (irq_branch inst appInfo hw s).2.2.1 (irq_branch inst appInfo hw s).2.2.2).2.1
    (irq_transmit inst appInfo (irq_branch inst appInfo hw s).2.1
      (irq_branch inst appInfo hw s).2.2.1 (irq_branch inst appInfo hw s).2.2.2).2.2
  simp only [transfers] at h hr ⊢
  simp only [List.filter_append, h, hr, List.nil_append, List.append_assoc]

/-- The result of the branch on the status bits, class by class. -/
theorem irq_branch_by_class {σ : Type} (inst : Nat) (appInfo : i2c_slave_info_t σ)
    (hw : I2CRegs) (s : σ) :
    irq_branch inst appInfo hw s =
      match spec_classify hw with
      | EventClass.arbitrationLost => ([], false, kStatus_I2C_AribtrationLost, s)
      | EventClass.addressedTransmit =>
        ([i2c_hal_get_slave_direction inst, i2c_hal_set_direction inst kI2CTransmit],
          true, kStatus_I2C_Success, s)
      | EventClass.addressedReceive =>
        ([i2c_hal_get_slave_direction inst, i2c_hal_set_direction inst kI2CReceive,
            i2c_hal_read inst hw.data], false, kStatus_I2C_Success, s)
      | EventClass.continueTransmitAck =>
        ([i2c_hal_get_direction inst, i2c_hal_get_receive_ack inst],
          true, kStatus_I2C_Success, s)
      | EventClass.continueTransmitNack =>
        ([i2c_hal_get_direction inst, i2c_hal_get_receive_ack inst,
            i2c_hal_set_direction inst kI2CReceive, i2c_hal_read inst hw.data],
          false, kStatus_I2C_Success, s)
      | EventClass.continueReceive =>
        match appInfo.data_sink with
        | some sink =>
          ([i2c_hal_get_direction inst, i2c_hal_read inst hw.data, data_sink hw.data],
            false,
            (if (sink hw.data s).1 ≠ kStatus_I2C_Success then kStatus_I2C_SlaveRxOverrun
              else kStatus_I2C_Success),
            (sink hw.data s).2)
        | none =>
          ([i2c_hal_get_direction inst, i2c_hal_read inst hw.data],
            false, kStatus_I2C_Success, s) := by
  obtain ⟨a, ad, m, sd, d, ack, data⟩ := hw
  cases a <;> cases ad <;> cases sd <;> cases d <;> cases ack <;>
    simp [irq_branch, spec_classify]

/-- The second component of the body's result in slave mode. -/
theorem irq_body_state {σ : Type} (inst : Nat) (appInfo : i2c_slave_info_t σ)
    (hw : I2CRegs) (s : σ) (hM : hw.isMaster = false) :
    (irq_body inst appInfo hw s).2 =
      (irq_report appInfo
        (irq_transmit inst appInfo (irq_branch inst appInfo hw s).2.1
          (irq_branch inst appInfo hw s).2.2.1 (irq_branch inst appInfo hw s).2.2.2).2.1
        (irq_transmit inst appInfo (irq_branch inst appInfo hw s).2.1
          (irq_branch inst appInfo hw s).2.2.1 (irq_branch inst appInfo hw s).2.2.2).2.2).2 := by
  simp [irq_body, hM]

/-- C20: for every slave-mode event on a valid instance, exactly one of the six classes
holds, namely the one the classification step gives (the classification is total and
the classes are mutually exclusive); and the handler returns with exactly the direction
change, data-register access and callbacks of the single dispatch on that class, in the
same order, and the same final application state, for every context. -/
theorem C20_classify_then_dispatch {σ : Type} (HW_I2C_INSTANCE_COUNT : Nat)
    (s_applicationInfo : Fin 2 → i2c_slave_info_t σ) (inst : Nat) (hw : I2CRegs) (s : σ)
    (appInfo : i2c_slave_info_t σ)
    (hI : inst < HW_I2C_INSTANCE_COUNT) (h2 : inst < 2)
    (hInfo : s_applicationInfo ⟨inst, h2⟩ = appInfo)
    (hM : hw.isMaster = false) :
    (∀ c : EventClass, c.holds hw = true ↔ c = spec_classify hw) ∧
    ∃ tr s',
      i2c_slave_irq_handler HW_I2C_INSTANCE_COUNT s_applicationInfo inst hw s
        = some (tr, s') ∧
      transfers tr = (spec_dispatch inst appInfo hw.data s (spec_classify hw)).1 ∧
      s' = (spec_dispatch inst appInfo hw.data s (spec_classify hw)).2 := by
  rw [handler_eq_body _ _ _ _ _ hI h2, hInfo]
  constructor
  · intro c
    obtain ⟨a, ad, m, sd, d, ack, data⟩ := hw
    cases c <;> cases a <;> cases ad <;> cases sd <;> cases d <;> cases ack <;>
      simp [EventClass.holds, spec_classify]
  · refine ⟨(irq_body inst appInfo hw s).1, (irq_body inst appInfo hw s).2, rfl, ?_⟩
    rw [transfers_body inst appInfo hw s hM, irq_body_state inst appInfo hw s hM,
      irq_branch_by_class]
    have hT := spec_transmit_eq inst appInfo s
    have hT1 := congrArg Prod.fst hT
    have hT2 := congrArg Prod.snd hT
    simp only at hT1 hT2
    cases hc : spec_classify hw <;> simp only [spec_dispatch]
    · simp [transfers, irq_transmit, spec_report_eq]
    · rw [← hT1, ← hT2]
      simp [transfers, Action.isDataRead, Action.isDataSink, Action.isDataWrite, Action.isDataSource,
      Action.isOnError, Action.isSetDirection, Action.isCallback, Action.isTransfer]
    · simp [transfers, irq_transmit, irq_report, Action.isDataRead, Action.isDataSink, Action.isDataWrite, Action.isDataSource,
      Action.isOnError, Action.isSetDirection, Action.isCallback, Action.isTransfer]
    · rw [← hT1, ← hT2]
      simp [transfers, Action.isDataRead, Action.isDataSink, Action.isDataWrite, Action.isDataSource,
      Action.isOnError, Action.isSetDirection, Action.isCallback, Action.isTransfer]
    · simp [transfers, irq_transmit, irq_report, Action.isDataRead, Action.isDataSink, Action.isDataWrite, Action.isDataSource,
      Action.isOnError, Action.isSetDirection, Action.isCallback, Action.isTransfer]
    · cases hSk : appInfo.data_sink
      · simp [transfers, irq_transmit, irq_report, Action.isDataRead, Action.isDataSink, Action.isDataWrite, Action.isDataSource,
      Action.isOnError, Action.isSetDirection, Action.isCallback, Action.isTransfer]
      · simp [transfers, irq_transmit, spec_report_eq, Action.isDataRead, Action.isDataSink, Action.isDataWrite, Action.isDataSource,
      Action.isOnError, Action.isSetDirection, Action.isCallback, Action.isTransfer]

/-! ## Claims on sequences of lifecycle calls -/

/-- Running two lists of steps one after the other. -/
theorem applyEffects_append {σ : Type} (a b : List (Effect σ)) :
    ∀ hw : Peripherals, applyEffects hw (a ++ b) = applyEffects (applyEffects hw a) b := by
  induction a with
  | nil => intro hw; rfl
  | cons e a ih => intro hw; simp [applyEffects, ih]

/-- A store with the interrupt enabled in a concatenation happens in the first part or,
from the flags the first part leaves, in the second. -/
theorem storeWhileInterruptEnabled_append {σ : Type} (irq inst : Nat)
    (a b : List (Effect σ)) :
    ∀ hw : Peripherals,
      storeWhileInterruptEnabled irq inst hw (a ++ b) =
        (storeWhileInterruptEnabled irq inst hw a
          || storeWhileInterruptEnabled irq inst (applyEffects hw a) b) := by
  induction a with
  | nil => intro hw; simp [storeWhileInterruptEnabled, applyEffects]
  | cons e a ih =>
    intro hw
    simp [storeWhileInterruptEnabled, applyEffects, ih, Bool.or_assoc]

/-- The steps of `i2c_slave_init` on a valid instance: the only store is the first step,
so a store happens with the interrupt source enabled exactly when the source is enabled
on entry. -/
theorem init_store_moment {σ : Type} (HW_I2C_INSTANCE_COUNT : Nat)
    (i2c_irq_ids : Nat → Nat) (table : Fin 2 → i2c_slave_info_t σ) (inst : Nat)
    (c : i2c_slave_info_t σ) (hI : inst < HW_I2C_INSTANCE_COUNT) (h2 : inst < 2) :
    ∃ effects,
      i2c_slave_init HW_I2C_INSTANCE_COUNT i2c_irq_ids table inst (some c)
        = some (Function.update table ⟨inst, h2⟩ c, effects) ∧
      ∀ (irq : Nat) (hw : Peripherals),
        storeWhileInterruptEnabled irq inst hw effects
          = hw.interruptSourceEnabled irq inst := by
  refine ⟨_, init_eq _ _ _ _ _ hI h2, ?_⟩
  intro irq hw
  simp [storeWhileInterruptEnabled, Effect.storesInto]

/-- The steps of `i2c_slave_shutdown` on a valid instance: no store, and the interrupt
line of the instance is disabled afterwards. -/
theorem shutdown_store_moment (σ : Type) (HW_I2C_INSTANCE_COUNT : Nat)
    (i2c_irq_ids : Nat → Nat) (inst : Nat) (hI : inst < HW_I2C_INSTANCE_COUNT) :
    ∃ effects : List (Effect σ),
      i2c_slave_shutdown HW_I2C_INSTANCE_COUNT i2c_irq_ids inst = some effects ∧
      (∀ (irq : Nat) (hw : Peripherals),
        storeWhileInterruptEnabled irq inst hw effects = false) ∧
      ∀ hw : Peripherals, (applyEffects hw effects).irqLine (i2c_irq_ids inst) = false := by
  have h : (i2c_slave_shutdown HW_I2C_INSTANCE_COUNT i2c_irq_ids inst :
      Option (List (Effect σ)))
      = some [Effect.i2c_hal_disable inst, Effect.interrupt_disable (i2c_irq_ids inst),
              Effect.clock_manager_set_gate inst false] := by
    simp only [i2c_slave_shutdown, hI, if_true]
  refine ⟨_, h, ?_, ?_⟩
  · intro irq hw
    simp [storeWhileInterruptEnabled, Effect.storesInto]
  · intro hw
    simp [applyEffects, Effect.apply]

/-- The steps of a valid sequence of lifecycle calls in which no `i2c_slave_init`
directly follows another one, started with the interrupt line of the instance disabled
unless the call before was an `i2c_slave_init`: no store happens with the interrupt
source enabled. -/
theorem lifecycle_store_safe {σ : Type} (HW_I2C_INSTANCE_COUNT : Nat)
    (i2c_irq_ids : Nat → Nat) (inst : Nat)
    (hI : inst < HW_I2C_INSTANCE_COUNT) (h2 : inst < 2) :
    ∀ (calls : List (Call σ)) (table : Fin 2 → i2c_slave_info_t σ) (hw : Peripherals)
      (afterInit : Bool),
      initOnlyWhenShutDown afterInit calls = true →
      (afterInit = false → hw.irqLine (i2c_irq_ids inst) = false) →
      ∃ table1 effects,
        lifecycle HW_I2C_INSTANCE_COUNT i2c_irq_ids inst table calls
          = some (table1, effects) ∧
        storeWhileInterruptEnabled (i2c_irq_ids inst) inst hw effects = false := by
  intro calls
  induction calls with
  | nil => intro table hw _ _ _; exact ⟨table, [], rfl, rfl⟩
  | cons call rest ih =>
    intro table hw afterInit hseq hline
    cases call with
    | init c =>
      simp only [initOnlyWhenShutDown, Bool.and_eq_true, Bool.not_eq_true'] at hseq
      obtain ⟨hA, hrest⟩ := hseq
      have hl := hline hA
      obtain ⟨E, hinit, hE⟩ := init_store_moment HW_I2C_INSTANCE_COUNT i2c_irq_ids table
        inst c hI h2
      obtain ⟨table1, effects, hlc, hsafe⟩ :=
        ih (Function.update table ⟨inst, h2⟩ c) (applyEffects hw E) true hrest
          (fun h => by simp at h)
      refine ⟨table1, E ++ effects, ?_, ?_⟩
      · simp only [lifecycle, hinit, hlc]
      · rw [storeWhileInterruptEnabled_append, hsafe, hE]
        simp [Peripherals.interruptSourceEnabled, hl]
    | shutdown =>
      simp only [initOnlyWhenShutDown] at hseq
      obtain ⟨E, hshut, hE, hline1⟩ := shutdown_store_moment σ
        HW_I2C_INSTANCE_COUNT i2c_irq_ids inst hI
      obtain ⟨table1, effects, hlc, hsafe⟩ :=
        ih table (applyEffects hw E) false hseq (fun _ => hline1 hw)
      refine ⟨table1, E ++ effects, ?_, ?_⟩
      · simp only [lifecycle, hshut, hlc]
      · rw [storeWhileInterruptEnabled_append, hsafe, hE]
        rfl

/-- C17, the claim as stated fails: `i2c_slave_init` stores the context (line 186)
before it disables the peripheral interrupt (line 198).  From reset, with the interrupt
source of instance 0 disabled, a second `i2c_slave_init` right after the first stores
the context while the interrupt source the first one enabled is still enabled. -/
theorem C17_counterexample :
    resetPeripherals.interruptSourceEnabled (exampleIrqIds 0) 0 = false ∧
    (i2c_slave_init 2 exampleIrqIds exampleTable 0 (some exampleInfo)).map
      (fun r => decide
        (r.2.findIdx Effect.isStore < r.2.findIdx Effect.isInterruptDisable)) = some true ∧
    (lifecycle 2 exampleIrqIds 0 exampleTable [Call.init exampleInfo]).map
      (fun r => (applyEffects resetPeripherals r.2).interruptSourceEnabled
        (exampleIrqIds 0) 0) = some true ∧
    (lifecycle 2 exampleIrqIds 0 exampleTable
        [Call.init exampleInfo, Call.init exampleInfo]).map
      (fun r => storeWhileInterruptEnabled (exampleIrqIds 0) 0 resetPeripherals r.2)
      = some true :=
  ⟨by decide, by decide, by decide, by decide⟩

/-- C17, amended: over every sequence of `i2c_slave_init` and `i2c_slave_shutdown` calls
on one valid instance in which no `i2c_slave_init` directly follows another one, started
with the interrupt line of the instance disabled: every call returns and no store into
the context of the instance happens while its interrupt source is enabled; and every
`i2c_slave_init` enables the interrupt line and the peripheral interrupt only after the
store. -/
theorem C17_store_with_interrupt_disabled {σ : Type} (HW_I2C_INSTANCE_COUNT : Nat)
    (i2c_irq_ids : Nat → Nat) (s_applicationInfo : Fin 2 → i2c_slave_info_t σ)
    (inst : Nat) (calls : List (Call σ)) (hw : Peripherals)
    (hI : inst < HW_I2C_INSTANCE_COUNT) (h2 : inst < 2)
    (hStart : hw.irqLine (i2c_irq_ids inst) = false)
    (hSeq : initOnlyWhenShutDown false calls = true) :
    (∃ table effects,
      lifecycle HW_I2C_INSTANCE_COUNT i2c_irq_ids inst s_applicationInfo calls
        = some (table, effects) ∧
      storeWhileInterruptEnabled (i2c_irq_ids inst) inst hw effects = false) ∧
    (∀ (c : i2c_slave_info_t σ) (table0 : Fin 2 → i2c_slave_info_t σ), ∃ table effects,
      i2c_slave_init HW_I2C_INSTANCE_COUNT i2c_irq_ids table0 inst (some c)
        = some (table, effects) ∧
      effects.countP Effect.isStore = 1 ∧
      effects.findIdx Effect.isStore < effects.findIdx Effect.isInterruptEnable) := by
  constructor
  · exact lifecycle_store_safe HW_I2C_INSTANCE_COUNT i2c_irq_ids inst hI h2 calls
      s_applicationInfo hw false hSeq (fun _ => hStart)
  · intro c table0
    refine ⟨_, _, init_eq _ _ _ _ _ hI h2, ?_, ?_⟩ <;>
      simp [List.findIdx_cons, Effect.isStore, Effect.isInterruptEnable]

/-! ## The later claims at concrete inputs -/

/-- C11 at an event in master mode with arbitration lost: no callback, no data-register
access, no direction change. -/
theorem C11_master_abort_witness :
    ∃ tr,
      i2c_slave_irq_handler 2 exampleTable 0 masterEvent exampleApp
        = some (tr, exampleApp) ∧
      tr = irq_entry 0 masterEvent ∧
      tr.countP Action.isCallback = 0 ∧
      tr.countP Action.isOnError = 0 ∧
      tr.countP Action.isDataRead = 0 ∧
      tr.countP Action.isDataWrite = 0 ∧
      tr.countP Action.isSetDirection = 0 :=
  C11_master_abort 2 exampleTable 0 masterEvent exampleApp (by decide) (by decide) rfl

/-- C12 at the initialisation of instance 1 over the table as the program starts:
entry 1 becomes the example registration and entry 0 keeps the zero entry. -/
theorem C12_init_stores_context_witness :
    ∃ table effects,
      i2c_slave_init 2 exampleIrqIds zeroTable 1 (some exampleInfo)
        = some (table, effects) ∧
      table 1 = exampleInfo ∧
      table 0 = zeroInfo := by
  obtain ⟨table, effects, h, h1, _, _, _, _, h0⟩ :=
    C12_init_stores_context 2 exampleIrqIds zeroTable 1 exampleInfo (by decide) (by decide)
  exact ⟨table, effects, h, h1, h0 0 (by decide)⟩

/-- C13 at the initialisation of instance 1: the last step enables the peripheral and
the store comes before the first interrupt enable. -/
theorem C13_init_order_witness :
    ∃ table effects,
      i2c_slave_init 2 exampleIrqIds zeroTable 1 (some exampleInfo)
        = some (table, effects) ∧
      effects.length = 11 ∧
      effects.findIdx Effect.isStore < effects.findIdx Effect.isInterruptEnable ∧
      effects.getLast? = some (Effect.i2c_hal_enable 1) := by
  obtain ⟨table, effects, h, he, _, _, hs, _, _, _, _, hl⟩ :=
    C13_init_order 2 exampleIrqIds zeroTable 1 exampleInfo (by decide) (by decide)
  exact ⟨table, effects, h, by rw [he]; rfl, hs, hl⟩

/-- C14 at instance 0 from reset. -/
theorem C14_init_then_shutdown_witness :
    ∃ d1 d2,
      Driver.init 2 exampleIrqIds exampleDriver 0 (some exampleInfo) = some d1 ∧
      Driver.shutdown 2 exampleIrqIds d1 0 = some d2 ∧
      d2.hw.enabled 0 = false ∧
      d2.hw.irqLine (exampleIrqIds 0) = false ∧
      d2.hw.clockGate 0 = false :=
  (C14_init_then_shutdown 2 exampleIrqIds exampleDriver 0 (by decide)).1
    (by decide) exampleInfo

/-- C15 at the reception of a byte on instance 0. -/
theorem C15_table_changed_only_by_init_witness :
    ∃ d1 tr,
      Driver.irq 2 exampleDriver 0 receiveEvent = some (d1, tr) ∧
      d1.s_applicationInfo = exampleDriver.s_applicationInfo :=
  (C15_table_changed_only_by_init 2 exampleIrqIds exampleDriver 0 receiveEvent
    (by decide) (by decide)).1

/-- C17, amended, at the sequence init, shutdown, init on instance 0 from reset. -/
theorem C17_store_with_interrupt_disabled_witness :
    ∃ table effects,
      lifecycle 2 exampleIrqIds 0 zeroTable
        [Call.init exampleInfo, Call.shutdown, Call.init exampleInfo]
        = some (table, effects) ∧
      storeWhileInterruptEnabled (exampleIrqIds 0) 0 resetPeripherals effects = false :=
  (C17_store_with_interrupt_disabled 2 exampleIrqIds zeroTable 0
    [Call.init exampleInfo, Call.shutdown, Call.init exampleInfo] resetPeripherals
    (by decide) (by decide) rfl rfl).1

/-- C18 at an acknowledged byte, one write and no read. -/
theorem C18_one_register_access_witness :
    ∃ tr s',
      i2c_slave_irq_handler 2 exampleTable 0 continueTransmitEvent exampleApp
        = some (tr, s') ∧
      tr.countP Action.isDataWrite ≤ 1 ∧
      tr.countP Action.isDataRead ≤ 1 ∧
      tr.countP Action.isDataRead + tr.countP Action.isDataWrite ≤ 1 ∧
      tr.countP Action.isSetDirection ≤ 1 :=
  C18_one_register_access 2 exampleTable 0 continueTransmitEvent exampleApp
    (by decide) (by decide)

/-- C19 at an address match for a read, once with arbitration lost, the direction bit at
transmit and the acknowledge bit set, and once plain: same transfers, and no
arbitration-lost report. -/
theorem C19_addressed_takes_precedence_witness :
    ∃ tr1 tr2 s',
      i2c_slave_irq_handler 2 exampleTable 0 addressedArbitrationLostEvent exampleApp
        = some (tr1, s') ∧
      i2c_slave_irq_handler 2 exampleTable 0 addressTransmitEvent exampleApp
        = some (tr2, s') ∧
      transfers tr1 = transfers tr2 ∧
      on_error kStatus_I2C_AribtrationLost ∉ tr1 := by
  obtain ⟨tr1, tr2, s', h1, h2, h3, _, _, h5⟩ :=
    C19_addressed_takes_precedence 2 exampleTable 0 addressedArbitrationLostEvent
      addressTransmitEvent exampleApp exampleInfo (by decide) (by decide)
      rfl rfl rfl rfl rfl rfl rfl
  refine ⟨tr1, tr2, s', h1, h2, h3, h5 ?_⟩
  intro source hs
  have hsrc : exampleSource = source := Option.some.inj hs
  subst hsrc
  decide

/-- C20 at the reception of a byte with a full buffer: the class is continue-receive and
the handler does what the dispatch on it does. -/
theorem C20_classify_then_dispatch_witness :
    spec_classify receiveEvent = EventClass.continueReceive ∧
    ∃ tr s',
      i2c_slave_irq_handler 2 exampleTable 0 receiveEvent exampleAppFull = some (tr, s') ∧
      transfers tr
        = (spec_dispatch 0 exampleInfo receiveEvent.data exampleAppFull
            (spec_classify receiveEvent)).1 ∧
      s' = (spec_dispatch 0 exampleInfo receiveEvent.data exampleAppFull
            (spec_classify receiveEvent)).2 :=
  ⟨by decide,
    (C20_classify_then_dispatch 2 exampleTable 0 receiveEvent exampleAppFull exampleInfo
      (by decide) (by decide) rfl rfl).2⟩

/-! ## Claims on the table bounds, the error local and null callbacks -/

/-- Under the asserted precondition: for an instance below 2 the handler returns;
`i2c_slave_init`, which stores into the entry on its only path (line 186), returns
exactly when the instance is below 2; and the instance is below 2 whenever
`HW_I2C_INSTANCE_COUNT` is at most 2. -/
theorem table_access_in_bounds {σ : Type} (HW_I2C_INSTANCE_COUNT : Nat)
    (i2c_irq_ids : Nat → Nat) (s_applicationInfo : Fin 2 → i2c_slave_info_t σ)
    (inst : Nat) (hw : I2CRegs) (s : σ) (c : i2c_slave_info_t σ)
    (hI : inst < HW_I2C_INSTANCE_COUNT) :
    (inst < 2 →
      (i2c_slave_irq_handler HW_I2C_INSTANCE_COUNT s_applicationInfo inst hw s).isSome
        = true) ∧
    ((i2c_slave_init HW_I2C_INSTANCE_COUNT i2c_irq_ids s_applicationInfo inst
        (some c)).isSome = true ↔ inst < 2) ∧
    (HW_I2C_INSTANCE_COUNT ≤ 2 → inst < 2) := by
  refine ⟨?_, ?_, fun h => by omega⟩
  · intro h2
    simp [i2c_slave_irq_handler, hI, h2]
  · by_cases h2 : inst < 2 <;> simp [i2c_slave_init, hI, h2]

/-- C21, the code at a failing input: with three I2C modules (`HW_I2C_INSTANCE_COUNT`
is 3) instance 2 satisfies the asserted precondition, yet the index 2 is outside the
table of two entries (line 51): the handler, on a received byte, reads `data_sink`
through it (line 143), and `i2c_slave_init` stores through it (line 186). -/
theorem C21_index_outside_table :
    (2 : Nat) < 3 ∧
    i2c_slave_irq_handler 3 exampleTable 2 receiveEvent exampleApp = none ∧
    (i2c_slave_init 3 exampleIrqIds zeroTable 2 (some exampleInfo)).isNone = true :=
  ⟨by decide, by decide, by decide⟩

/-- C22: in every slave-mode call on a valid instance, when the branch on the status
bits sets `doTransmit` the local `error` is `kStatus_I2C_Success` at that point; and
when the branch classifies an error (arbitration lost, receive overrun) `doTransmit`
stays false, `data_source` is not called, the local `error` keeps that value up to line
166, and with `on_error` registered the call ends with its report: the assignment of
line 160 never discards a classified error. -/
theorem C22_error_is_success_before_transmit {σ : Type} (HW_I2C_INSTANCE_COUNT : Nat)
    (s_applicationInfo : Fin 2 → i2c_slave_info_t σ) (inst : Nat) (hw : I2CRegs) (s : σ)
    (appInfo : i2c_slave_info_t σ)
    (hI : inst < HW_I2C_INSTANCE_COUNT) (h2 : inst < 2)
    (hInfo : s_applicationInfo ⟨inst, h2⟩ = appInfo) (hM : hw.isMaster = false) :
    ((irq_branch inst appInfo hw s).2.1 = true →
      (irq_branch inst appInfo hw s).2.2.1 = kStatus_I2C_Success) ∧
    (∀ e, e ≠ kStatus_I2C_Success → (irq_branch inst appInfo hw s).2.2.1 = e →
      (irq_branch inst appInfo hw s).2.1 = false ∧
      irq_error inst appInfo hw s = e ∧
      ∃ tr s',
        i2c_slave_irq_handler HW_I2C_INSTANCE_COUNT s_applicationInfo inst hw s
          = some (tr, s') ∧
        tr.countP Action.isDataSource = 0 ∧
        (appInfo.on_error.isSome = true → tr.getLast? = some (on_error e))) := by
  refine ⟨fun hT => (irq_branch_doTransmit inst appInfo hw s hT).1, ?_⟩
  intro e hne he
  have hT : (irq_branch inst appInfo hw s).2.1 = false := by
    cases h : (irq_branch inst appInfo hw s).2.1
    · rfl
    · exact absurd ((irq_branch_doTransmit inst appInfo hw s h).1.symm.trans he) hne.symm
  have herr : irq_error inst appInfo hw s = e := by
    simp [irq_error, irq_transmit, hT, he]
  refine ⟨hT, herr, ?_⟩
  rw [handler_eq_body _ _ _ _ _ hI h2, hInfo]
  refine ⟨(irq_body inst appInfo hw s).1, (irq_body inst appInfo hw s).2, rfl, ?_, ?_⟩
  · rw [irq_body_trace]
    obtain ⟨_, _, _, e4, _⟩ := irq_entry_counts inst hw
    obtain ⟨_, b2, _⟩ := irq_branch_counts inst appInfo hw s
    obtain ⟨_, _, _, _, _, r6, _⟩ := irq_report_counts appInfo
      (irq_transmit inst appInfo (irq_branch inst appInfo hw s).2.1
        (irq_branch inst appInfo hw s).2.2.1 (irq_branch inst appInfo hw s).2.2.2).2.1
      (irq_transmit inst appInfo (irq_branch inst appInfo hw s).2.1
        (irq_branch inst appInfo hw s).2.2.1 (irq_branch inst appInfo hw s).2.2.2).2.2
    simp only [hM, Bool.false_eq_true, if_false, List.countP_append, e4, b2, r6]
    simp [hT, irq_transmit]
  · intro hE
    obtain ⟨notify, hn⟩ := Option.isSome_iff_exists.mp hE
    rw [irq_body_trace]
    simp only [hM, Bool.false_eq_true, if_false]
    simp [hT, irq_transmit, he, irq_report, hne, hn]

/-- Without a `data_sink` the branch on the status bits calls no `data_sink`. -/
theorem irq_branch_no_sink {σ : Type} (inst : Nat) (appInfo : i2c_slave_info_t σ)
    (hw : I2CRegs) (s : σ) (hSk : appInfo.data_sink = none) :
    (irq_branch inst appInfo hw s).1.countP Action.isDataSink = 0 := by
  obtain ⟨a, ad, m, sd, d, ack, data⟩ := hw
  cases a <;> cases ad <;> cases sd <;> cases d <;> cases ack <;>
    simp [irq_branch, hSk, Action.isDataRead, Action.isDataSink, Action.isDataWrite, Action.isDataSource,
      Action.isOnError, Action.isSetDirection, Action.isCallback]

/-- Without a `data_source` the transmit action calls no `data_source`. -/
theorem irq_transmit_no_source {σ : Type} (inst : Nat) (appInfo : i2c_slave_info_t σ)
    (d : Bool) (e : i2c_status_t) (s : σ) (hSrc : appInfo.data_source = none) :
    (irq_transmit inst appInfo d e s).1.countP Action.isDataSource = 0 := by
  cases d <;> simp [irq_transmit, hSrc, Action.isDataRead, Action.isDataSink, Action.isDataWrite, Action.isDataSource,
      Action.isOnError, Action.isSetDirection, Action.isCallback]

/-- Without an `on_error` the report stage does nothing. -/
theorem irq_report_none {σ : Type} (appInfo : i2c_slave_info_t σ) (e : i2c_status_t)
    (s : σ) (hE : appInfo.on_error = none) : irq_report appInfo e s = ([], s) := by
  by_cases he : e = kStatus_I2C_Success <;> simp [irq_report, he, hE]

/-- A call never invokes a callback that is not registered. -/
theorem irq_body_unregistered {σ : Type} (inst : Nat) (appInfo : i2c_slave_info_t σ)
    (hw : I2CRegs) (s : σ) :
    (appInfo.data_source = none →
      (irq_body inst appInfo hw s).1.countP Action.isDataSource = 0) ∧
    (appInfo.data_sink = none →
      (irq_body inst appInfo hw s).1.countP Action.isDataSink = 0) ∧
    (appInfo.on_error = none →
      (irq_body inst appInfo hw s).1.countP Action.isOnError = 0) := by
  rw [irq_body_trace]
  obtain ⟨_, _, _, e4, e5, e6, _⟩ := irq_entry_counts inst hw
  obtain ⟨_, b2, b3, _⟩ := irq_branch_counts inst appInfo hw s
  obtain ⟨_, _, _, _, t5, t6, _⟩ := irq_transmit_counts inst appInfo
    (irq_branch inst appInfo hw s).2.1 (irq_branch inst appInfo hw s).2.2.1
    (irq_branch inst appInfo hw s).2.2.2
  obtain ⟨_, _, _, _, _, r6, r7, _⟩ := irq_report_counts appInfo
    (irq_transmit inst appInfo (irq_branch inst appInfo hw s).2.1
      (irq_branch inst appInfo hw s).2.2.1 (irq_branch inst appInfo hw s).2.2.2).2.1
    (irq_transmit inst appInfo (irq_branch inst appInfo hw s).2.1
      (irq_branch inst appInfo hw s).2.2.1 (irq_branch inst appInfo hw s).2.2.2).2.2
  cases hM : hw.isMaster
  · simp only [Bool.false_eq_true, if_false, List.countP_append]
    refine ⟨fun h => ?_, fun h => ?_, fun h => ?_⟩
    · rw [e4, b2, r6, irq_transmit_no_source _ _ _ _ _ h]
    · rw [e5, t5, r7, irq_branch_no_sink _ _ _ _ h]
    · rw [e6, b3, t6, irq_report_none _ _ _ h]
      rfl
  · simp only [if_true, List.append_nil]
    exact ⟨fun _ => e4, fun _ => e5, fun _ => e6⟩

/-- The actions of a call with `on_error` unregistered are those of the call with an
`on_error` registered, less the `on_error` call. -/
theorem irq_body_without_on_error {σ : Type} (inst : Nat) (appInfo : i2c_slave_info_t σ)
    (hw : I2CRegs) (s : σ) (notify : i2c_status_t → σ → σ)
    (hE : appInfo.on_error = none) :
    (irq_body inst appInfo hw s).1 =
      (irq_body inst
        ⟨appInfo.slaveAddress, appInfo.data_source, appInfo.data_sink, some notify⟩
        hw s).1.filter (fun a => !a.isOnError) := by
  have hb : irq_branch inst
      ⟨appInfo.slaveAddress, appInfo.data_source, appInfo.data_sink, some notify⟩ hw s
      = irq_branch inst appInfo hw s := rfl
  have ht : ∀ d e s1, irq_transmit inst
      ⟨appInfo.slaveAddress, appInfo.data_source, appInfo.data_sink, some notify⟩ d e s1
      = irq_transmit inst appInfo d e s1 := fun _ _ _ => rfl
  rw [irq_body_trace, irq_body_trace, hb]
  simp only [ht]
  have fid : ∀ l : List Action, (∀ a ∈ l, a.isOnError = false) →
      l.filter (fun a => !a.isOnError) = l := by
    intro l hl
    exact List.filter_eq_self.mpr (fun a ha => by simp [hl a ha])
  have f1 := fid _ (fun a ha => (irq_entry_quiet inst hw a ha).2.2)
  have f2 := fid _ (fun a ha => (irq_branch_quiet inst appInfo hw s a ha).2.2)
  have f3 := fid _ (irq_transmit_no_on_error inst appInfo
    (irq_branch inst appInfo hw s).2.1 (irq_branch inst appInfo hw s).2.2.1
    (irq_branch inst appInfo hw s).2.2.2)
  cases hM : hw.isMaster
  · simp only [Bool.false_eq_true, if_false, List.filter_append, f1, f2, f3]
    rw [irq_report_none _ _ _ hE]
    rcases irq_report_cases
        ⟨appInfo.slaveAddress, appInfo.data_source, appInfo.data_sink, some notify⟩
        (irq_transmit inst appInfo (irq_branch inst appInfo hw s).2.1
          (irq_branch inst appInfo hw s).2.2.1 (irq_branch inst appInfo hw s).2.2.2).2.1
        (irq_transmit inst appInfo (irq_branch inst appInfo hw s).2.1
          (irq_branch inst appInfo hw s).2.2.1 (irq_branch inst appInfo hw s).2.2.2).2.2
      with h | ⟨_, h⟩ <;>
      simp [h, Action.isOnError]
  · simp only [if_true, List.append_nil, f1]

/-- C23: on a valid instance, for every event and every combination of registered and
unregistered callbacks, the handler returns and calls no callback that is not
registered.  Without a `data_sink`, a continue-receive event still has exactly one
data-register read, no callback, no error, and the application state is unchanged.
Without a `data_source`, a call whose transmit action runs writes exactly the byte 0x00,
with no callback, no error, and the application state unchanged.  Without an `on_error`,
the trace is the one the same call has with an `on_error` registered, less the
`on_error` call. -/
theorem C23_no_null_callback {σ : Type} (HW_I2C_INSTANCE_COUNT : Nat)
    (s_applicationInfo : Fin 2 → i2c_slave_info_t σ) (inst : Nat) (hw : I2CRegs) (s : σ)
    (appInfo : i2c_slave_info_t σ)
    (hI : inst < HW_I2C_INSTANCE_COUNT) (h2 : inst < 2)
    (hInfo : s_applicationInfo ⟨inst, h2⟩ = appInfo) :
    ∃ tr s',
      i2c_slave_irq_handler HW_I2C_INSTANCE_COUNT s_applicationInfo inst hw s
        = some (tr, s') ∧
      (appInfo.data_source = none → tr.countP Action.isDataSource = 0) ∧
      (appInfo.data_sink = none → tr.countP Action.isDataSink = 0) ∧
      (appInfo.on_error = none → tr.countP Action.isOnError = 0) ∧
      (appInfo.data_sink = none → hw.isMaster = false → hw.arbitrationLost = false →
        hw.addressedAsSlave = false → hw.direction = kI2CReceive →
        tr.countP Action.isDataRead = 1 ∧
        tr.countP Action.isCallback = 0 ∧
        irq_error inst appInfo hw s = kStatus_I2C_Success ∧
        s' = s) ∧
      (appInfo.data_source = none → hw.isMaster = false →
        (irq_branch inst appInfo hw s).2.1 = true →
        tr.countP Action.isDataWrite = 1 ∧
        writtenBytes tr = [(0x00 : uint8_t)] ∧
        tr.countP Action.isCallback = 0 ∧
        irq_error inst appInfo hw s = kStatus_I2C_Success ∧
        s' = s) ∧
      (appInfo.on_error = none →
        ∀ (notify : i2c_status_t → σ → σ) (other : Fin 2 → i2c_slave_info_t σ),
          other ⟨inst, h2⟩
            = ⟨appInfo.slaveAddress, appInfo.data_source, appInfo.data_sink, some notify⟩ →
          ∃ tr2 s2,
            i2c_slave_irq_handler HW_I2C_INSTANCE_COUNT other inst hw s = some (tr2, s2) ∧
            tr = tr2.filter (fun a => !a.isOnError)) := by
  rw [handler_eq_body _ _ _ _ _ hI h2, hInfo]
  obtain ⟨u1, u2, u3⟩ := irq_body_unregistered inst appInfo hw s
  refine ⟨(irq_body inst appInfo hw s).1, (irq_body inst appInfo hw s).2, rfl, u1, u2, u3,
    ?_, ?_, ?_⟩
  · intro hSk hM hA hS hD
    simp [irq_error, irq_body, irq_entry, irq_branch, irq_transmit, irq_report,
        hSk, hM, hA, hS, hD, Action.isDataRead, Action.isDataSink, Action.isDataWrite, Action.isDataSource,
        Action.isOnError, Action.isSetDirection, Action.isCallback]
  · intro hSrc hM hT
    have hb := irq_branch_doTransmit inst appInfo hw s hT
    have hq : ∀ a ∈ irq_entry inst hw ++ (irq_branch inst appInfo hw s).1,
        a.isDataWrite = false ∧ a.isDataSource = false ∧ a.isOnError = false := by
      intro a ha
      rcases List.mem_append.mp ha with h | h
      · exact irq_entry_quiet inst hw a h
      · exact irq_branch_quiet inst appInfo hw s a h
    have hbody : irq_body inst appInfo hw s
        = (irq_entry inst hw ++ (irq_branch inst appInfo hw s).1
            ++ [i2c_hal_write inst I2C_EMPTY_CHAR], s) := by
      simp [irq_body, hM, irq_transmit, hT, hSrc, hb.1, hb.2, irq_report]
    have herr : irq_error inst appInfo hw s = kStatus_I2C_Success := by
      simp [irq_error, irq_transmit, hT, hSrc, hb.1]
    obtain ⟨_, _, _, _, _, _, e7⟩ := irq_entry_counts inst hw
    obtain ⟨_, _, _, _, _, _, b7, b8⟩ := irq_branch_counts inst appInfo hw s
    rw [hbody]
    refine ⟨?_, ?_, ?_, herr, rfl⟩
    · rw [List.countP_append,
        List.countP_eq_zero.mpr (fun a ha => by simp [(hq a ha).1])]
      simp [Action.isDataWrite]
    · rw [writtenBytes_append, writtenBytes_of_no_write _ (fun a ha => (hq a ha).1)]
      simp [writtenBytes, I2C_EMPTY_CHAR]
    · simp only [List.countP_append, e7, b7, (b8 hT).2]
      simp [Action.isCallback, Action.isDataSource, Action.isDataSink, Action.isOnError]
  · intro hE notify other ho
    rw [handler_eq_body _ _ _ _ _ hI h2, ho]
    exact ⟨_, _, rfl, irq_body_without_on_error inst appInfo hw s notify hE⟩

/-! ## The last claims at concrete inputs -/

/-- C22 at arbitration lost while not addressed, direction transmit and acknowledge set:
`doTransmit` stays false and the call ends with the arbitration-lost report. -/
theorem C22_error_is_success_before_transmit_witness :
    (irq_branch 0 exampleInfo arbitrationLostEvent exampleApp).2.1 = false ∧
    irq_error 0 exampleInfo arbitrationLostEvent exampleApp
      = kStatus_I2C_AribtrationLost ∧
    ∃ tr s',
      i2c_slave_irq_handler 2 exampleTable 0 arbitrationLostEvent exampleApp
        = some (tr, s') ∧
      tr.countP Action.isDataSource = 0 ∧
      tr.getLast? = some (on_error kStatus_I2C_AribtrationLost) := by
  obtain ⟨hd, he, tr, s', h, hs, hl⟩ :=
    (C22_error_is_success_before_transmit 2 exampleTable 0 arbitrationLostEvent exampleApp
      exampleInfo (by decide) (by decide) rfl rfl).2
      kStatus_I2C_AribtrationLost (by decide) rfl
  exact ⟨hd, he, tr, s', h, hs, hl rfl⟩

/-- C23 at an address match for a read on the table as the program starts, no callback
registered: the byte 0x00 is written and no callback is invoked. -/
theorem C23_no_null_callback_witness :
    ∃ tr s',
      i2c_slave_irq_handler 2 zeroTable 0 addressTransmitEvent exampleApp
        = some (tr, s') ∧
      tr.countP Action.isDataSource = 0 ∧
      tr.countP Action.isDataSink = 0 ∧
      tr.countP Action.isOnError = 0 ∧
      tr.countP Action.isDataWrite = 1 ∧
      writtenBytes tr = [(0x00 : uint8_t)] ∧
      tr.countP Action.isCallback = 0 ∧
      s' = exampleApp := by
  obtain ⟨tr, s', h, h1, h2, h3, _, h5, _⟩ :=
    C23_no_null_callback 2 zeroTable 0 addressTransmitEvent exampleApp zeroInfo
      (by decide) (by decide) rfl
  obtain ⟨w1, w2, w3, _, w5⟩ := h5 rfl rfl rfl
  exact ⟨tr, s', h, h1 rfl, h2 rfl, h3 rfl, w1, w2, w3, w5⟩

/-! ## The callbacks of one call -/

/-- In a call that invokes `data_sink`, an `on_error` call is present exactly when the
status `data_sink` returned for the byte read is not success and `on_error` is
registered. -/
theorem irq_body_sink_then_on_error {σ : Type} (inst : Nat) (appInfo : i2c_slave_info_t σ)
    (hw : I2CRegs) (s : σ) (sink : uint8_t → σ → i2c_status_t × σ)
    (hSk : appInfo.data_sink = some sink)
    (hc : (irq_body inst appInfo hw s).1.countP Action.isDataSink = 1) :
    (irq_body inst appInfo hw s).1.countP Action.isOnError = 1 ↔
      ((sink hw.data s).1 ≠ kStatus_I2C_Success ∧ appInfo.on_error.isSome = true) := by
  obtain ⟨_, _, _, _, e5, e6, _⟩ := irq_entry_counts inst hw
  have t5 := fun d e s1 => (irq_transmit_counts inst appInfo d e s1).2.2.2.2.1
  have r7 := fun e s1 => (irq_report_counts appInfo e s1).2.2.2.2.2.2.1
  rw [irq_body_trace] at hc ⊢
  rcases Bool.eq_false_or_eq_true hw.isMaster with hM | hM
  · simp [hM, e5] at hc
  · simp only [hM, Bool.false_eq_true, if_false, List.countP_append, e5, e6, t5, r7,
      Nat.zero_add, Nat.add_zero] at hc ⊢
    rw [irq_branch_by_class] at hc ⊢
    revert hc
    cases hcl : spec_classify hw <;> intro hc
    case continueReceive =>
      simp only [hSk] at hc ⊢
      by_cases hst : (sink hw.data s).1 = kStatus_I2C_Success <;>
        cases hE : appInfo.on_error <;>
        simp [irq_transmit, irq_report, hst, hE, Action.isDataRead, Action.isDataSink, Action.isDataWrite, Action.isDataSource,
      Action.isOnError, Action.isSetDirection, Action.isCallback]
    all_goals simp [Action.isDataRead, Action.isDataSink, Action.isDataWrite, Action.isDataSource,
      Action.isOnError, Action.isSetDirection, Action.isCallback] at hc

/-- In a call that invokes `data_source`, an `on_error` call is present exactly when the
status `data_source` returned is not success and `on_error` is registered. -/
theorem irq_body_source_then_on_error {σ : Type} (inst : Nat)
    (appInfo : i2c_slave_info_t σ) (hw : I2CRegs) (s : σ)
    (source : uint8_t → σ → i2c_status_t × uint8_t × σ)
    (hSrc : appInfo.data_source = some source)
    (hc : (irq_body inst appInfo hw s).1.countP Action.isDataSource = 1) :
    (irq_body inst appInfo hw s).1.countP Action.isOnError = 1 ↔
      ((source I2C_EMPTY_CHAR s).1 ≠ kStatus_I2C_Success
        ∧ appInfo.on_error.isSome = true) := by
  obtain ⟨_, _, _, e4, _, e6, _⟩ := irq_entry_counts inst hw
  obtain ⟨_, b2, b3, _⟩ := irq_branch_counts inst appInfo hw s
  have r6 := fun e s1 => (irq_report_counts appInfo e s1).2.2.2.2.2.1
  rcases Bool.eq_false_or_eq_true hw.isMaster with hM | hM
  · rw [irq_body_trace] at hc
    simp [hM, e4] at hc
  · have hT : (irq_branch inst appInfo hw s).2.1 = true := by
      cases h : (irq_branch inst appInfo hw s).2.1
      · rw [irq_body_trace] at hc
        simp [hM, List.countP_append, e4, b2, r6, h, irq_transmit] at hc
      · rfl
    rw [irq_body_transmit inst appInfo hw s source hM hT hSrc]
    simp only [List.countP_append, e6, b3, Nat.zero_add]
    by_cases hst : (source I2C_EMPTY_CHAR s).1 = kStatus_I2C_Success <;>
      cases hE : appInfo.on_error <;>
      simp [irq_report, hst, hE, Action.isDataRead, Action.isDataSink, Action.isDataWrite, Action.isDataSource,
      Action.isOnError, Action.isSetDirection, Action.isCallback]

/-- C16, amended: on a valid instance, for every input, the handler returns and its
trace holds at most one data callback (`data_source` or `data_sink`, never both) and at
most one `on_error` call, hence at most two application callbacks, and at most one when
the final error is success.  `on_error` joins a data callback only when that callback
returned a status other than success: in a call that invokes `data_sink`, or
`data_source`, there is an `on_error` call exactly when the status that callback
returned is not success and `on_error` is registered; so two callbacks in one call mean
a data callback that failed. -/
theorem C16_callbacks_per_call {σ : Type} (HW_I2C_INSTANCE_COUNT : Nat)
    (s_applicationInfo : Fin 2 → i2c_slave_info_t σ) (inst : Nat) (hw : I2CRegs) (s : σ)
    (hI : inst < HW_I2C_INSTANCE_COUNT) (h2 : inst < 2) :
    ∃ tr s',
      i2c_slave_irq_handler HW_I2C_INSTANCE_COUNT s_applicationInfo inst hw s
        = some (tr, s') ∧
      tr.countP Action.isDataSource + tr.countP Action.isDataSink ≤ 1 ∧
      tr.countP Action.isOnError ≤ 1 ∧
      tr.countP Action.isCallback ≤ 2 ∧
      (irq_error inst (s_applicationInfo ⟨inst, h2⟩) hw s = kStatus_I2C_Success →
        tr.countP Action.isCallback ≤ 1) ∧
      (∀ sink, (s_applicationInfo ⟨inst, h2⟩).data_sink = some sink →
        tr.countP Action.isDataSink = 1 →
        (tr.countP Action.isOnError = 1 ↔
          ((sink hw.data s).1 ≠ kStatus_I2C_Success
            ∧ (s_applicationInfo ⟨inst, h2⟩).on_error.isSome = true))) ∧
      (∀ source, (s_applicationInfo ⟨inst, h2⟩).data_source = some source →
        tr.countP Action.isDataSource = 1 →
        (tr.countP Action.isOnError = 1 ↔
          ((source I2C_EMPTY_CHAR s).1 ≠ kStatus_I2C_Success
            ∧ (s_applicationInfo ⟨inst, h2⟩).on_error.isSome = true))) ∧
      (tr.countP Action.isCallback = 2 →
        (∃ sink, (s_applicationInfo ⟨inst, h2⟩).data_sink = some sink ∧
          tr.countP Action.isDataSink = 1 ∧
          (sink hw.data s).1 ≠ kStatus_I2C_Success) ∨
        (∃ source, (s_applicationInfo ⟨inst, h2⟩).data_source = some source ∧
          tr.countP Action.isDataSource = 1 ∧
          (source I2C_EMPTY_CHAR s).1 ≠ kStatus_I2C_Success)) := by
  rw [handler_eq_body _ _ _ _ _ hI h2]
  generalize s_applicationInfo ⟨inst, h2⟩ = appInfo
  obtain ⟨_, _, c3, c4, c5, c6⟩ := irq_body_counts inst appInfo hw s
  obtain ⟨u1, u2, _⟩ := irq_body_unregistered inst appInfo hw s
  refine ⟨(irq_body inst appInfo hw s).1, (irq_body inst appInfo hw s).2, rfl, c3, c4,
    by omega, ?_, ?_, ?_, ?_⟩
  · intro h
    have := c6 h
    omega
  · exact fun sink hSk hc => irq_body_sink_then_on_error inst appInfo hw s sink hSk hc
  · exact fun source hSrc hc =>
      irq_body_source_then_on_error inst appInfo hw s source hSrc hc
  · intro hcb
    have hE1 : (irq_body inst appInfo hw s).1.countP Action.isOnError = 1 := by omega
    rcases Nat.eq_zero_or_pos ((irq_body inst appInfo hw s).1.countP Action.isDataSink)
      with hk | hk
    · have hs1 : (irq_body inst appInfo hw s).1.countP Action.isDataSource = 1 := by omega
      cases hSrc : appInfo.data_source with
      | none =>
        have := u1 hSrc
        omega
      | some source =>
        exact Or.inr ⟨source, rfl, hs1,
          ((irq_body_source_then_on_error inst appInfo hw s source hSrc hs1).mp hE1).1⟩
    · have hk1 : (irq_body inst appInfo hw s).1.countP Action.isDataSink = 1 := by omega
      cases hSk : appInfo.data_sink with
      | none =>
        have := u2 hSk
        omega
      | some sink =>
        exact Or.inl ⟨sink, rfl, hk1,
          ((irq_body_sink_then_on_error inst appInfo hw s sink hSk hk1).mp hE1).1⟩

/-- C16, amended, at the reception of the byte 0x5A: with a full buffer the sink
refuses the byte and `on_error` follows the `data_sink` call, two callbacks; with room
in the buffer the sink returns success and the `data_sink` call is the only callback. -/
theorem C16_callbacks_per_call_witness :
    (∃ tr s',
      i2c_slave_irq_handler 2 exampleTable 0 receiveEvent exampleAppFull = some (tr, s') ∧
      tr.countP Action.isDataSource + tr.countP Action.isDataSink ≤ 1 ∧
      tr.countP Action.isCallback ≤ 2 ∧
      tr.countP Action.isDataSink = 1 ∧
      (exampleSink 0x5A exampleAppFull).1 ≠ kStatus_I2C_Success ∧
      tr.countP Action.isOnError = 1) ∧
    (∃ tr s',
      i2c_slave_irq_handler 2 exampleTable 0 receiveEvent exampleApp = some (tr, s') ∧
      tr.countP Action.isDataSink = 1 ∧
      (exampleSink 0x5A exampleApp).1 = kStatus_I2C_Success ∧
      tr.countP Action.isOnError = 0) := by
  constructor
  · obtain ⟨tr, s', h, h1, _, h3, _, hk, _⟩ :=
      C16_callbacks_per_call 2 exampleTable 0 receiveEvent exampleAppFull
        (by decide) (by decide)
    have h0 : i2c_slave_irq_handler 2 exampleTable 0 receiveEvent exampleAppFull
        = some ([i2c_hal_clear_interrupt 0, i2c_hal_was_arbitration_lost 0,
                  i2c_hal_is_addressed_as_slave 0, i2c_hal_is_master 0,
                  i2c_hal_get_direction 0, i2c_hal_read 0 0x5A, data_sink 0x5A,
                  on_error kStatus_I2C_SlaveRxOverrun],
                ⟨[], [0x01, 0x02], [kStatus_I2C_SlaveRxOverrun]⟩) := by decide
    have ht := (Prod.mk.inj (Option.some.inj (h0.symm.trans h))).1
    have hc : tr.countP Action.isDataSink = 1 := by rw [← ht]; decide
    exact ⟨tr, s', h, h1, h3, hc, by decide,
      (hk exampleSink rfl hc).mpr ⟨by decide, rfl⟩⟩
  · obtain ⟨tr, s', h, _, h2, _, _, hk, _⟩ :=
      C16_callbacks_per_call 2 exampleTable 0 receiveEvent exampleApp
        (by decide) (by decide)
    have h0 : i2c_slave_irq_handler 2 exampleTable 0 receiveEvent exampleApp
        = some ([i2c_hal_clear_interrupt 0, i2c_hal_was_arbitration_lost 0,
                  i2c_hal_is_addressed_as_slave 0, i2c_hal_is_master 0,
                  i2c_hal_get_direction 0, i2c_hal_read 0 0x5A, data_sink 0x5A],
                ⟨[0x11, 0x22, 0x33], [0x5A], []⟩) := by decide
    have ht := (Prod.mk.inj (Option.some.inj (h0.symm.trans h))).1
    have hc : tr.countP Action.isDataSink = 1 := by rw [← ht]; decide
    have hno : ¬ tr.countP Action.isOnError = 1 := fun h1 =>
      ((hk exampleSink rfl hc).mp h1).1 (by decide)
    exact ⟨tr, s', h, hc, by decide, by omega⟩

end I2CSlave
